import Mathlib

/-!
Verification development for the FlowScript AST-to-SSA code generator
(src/llvm_generator.c).  The generator is embedded shallowly: LLVM-C
builder state (module, blocks, insertion point, symbol scopes, piped
value) becomes an explicit `GenState`, and every `codegen_*` C function
becomes a Lean function of the same name threading that state.  A fuel
parameter makes the mutual recursion structurally terminating; fuel 0
returns the state unchanged, and all theorems either hold for every
fuel or take an ample concrete fuel.
-/

namespace FlowScript

/-- LLVM types used by the generator: 1/8/32-bit integers, floats,
void, pointers and function signatures. -/
inductive Ty where
  | i1 : Ty
  | i8 : Ty
  | i32 : Ty
  | f32 : Ty
  | f64 : Ty
  | void : Ty
  | ptr : Ty → Ty
  | fn : List Ty → Ty → Bool → Ty

mutual

/-- Boolean equality on types (hand-written: `Ty` nests `List Ty`). -/
def Ty.beq : Ty → Ty → Bool
  | .i1, .i1 => true
  | .i8, .i8 => true
  | .i32, .i32 => true
  | .f32, .f32 => true
  | .f64, .f64 => true
  | .void, .void => true
  | .ptr a, .ptr b => Ty.beq a b
  | .fn ps r v, .fn qs s w => Ty.beqList ps qs && Ty.beq r s && (v == w)
  | _, _ => false

def Ty.beqList : List Ty → List Ty → Bool
  | [], [] => true
  | a :: as, b :: bs => Ty.beq a b && Ty.beqList as bs
  | _, _ => false

end

mutual

theorem Ty.eq_of_beq : ∀ {a b : Ty}, Ty.beq a b = true → a = b
  | .i1, .i1, _ => rfl
  | .i8, .i8, _ => rfl
  | .i32, .i32, _ => rfl
  | .f32, .f32, _ => rfl
  | .f64, .f64, _ => rfl
  | .void, .void, _ => rfl
  | .ptr a, .ptr b, h => by rw [Ty.eq_of_beq (a := a) (b := b) h]
  | .fn ps r v, .fn qs s w, h => by
    simp only [Ty.beq, Bool.and_eq_true, beq_iff_eq] at h
    rw [Ty.eqList_of_beq h.1.1, Ty.eq_of_beq h.1.2, h.2]

theorem Ty.eqList_of_beq : ∀ {as bs : List Ty}, Ty.beqList as bs = true → as = bs
  | [], [], _ => rfl
  | a :: as, b :: bs, h => by
    simp only [Ty.beqList, Bool.and_eq_true] at h
    rw [Ty.eq_of_beq h.1, Ty.eqList_of_beq h.2]
  | [], _ :: _, h => by simp [Ty.beqList] at h
  | _ :: _, [], h => by simp [Ty.beqList] at h

end

mutual

theorem Ty.beq_refl : ∀ a : Ty, Ty.beq a a = true
  | .i1 => rfl
  | .i8 => rfl
  | .i32 => rfl
  | .f32 => rfl
  | .f64 => rfl
  | .void => rfl
  | .ptr a => Ty.beq_refl a
  | .fn ps r v => by
    simp only [Ty.beq, Bool.and_eq_true, beq_iff_eq]
    exact ⟨⟨Ty.beqList_refl ps, Ty.beq_refl r⟩, trivial⟩

theorem Ty.beqList_refl : ∀ as : List Ty, Ty.beqList as as = true
  | [] => rfl
  | a :: as => by
    simp only [Ty.beqList, Bool.and_eq_true]
    exact ⟨Ty.beq_refl a, Ty.beqList_refl as⟩

end

instance : DecidableEq Ty := fun a b =>
  decidable_of_iff (Ty.beq a b = true)
    ⟨Ty.eq_of_beq, fun h => h ▸ Ty.beq_refl a⟩

instance : Repr Ty := ⟨fun _ _ => Std.Format.text "Ty"⟩

/-- Integer comparison predicates (subset of LLVMIntPredicate used). -/
inductive Pred where
  | eq | ne | slt | sgt | sle | sge
deriving DecidableEq, Repr

/-- LLVM values as seen by the generator: integer constants,
instruction results (tagged with whether they are alloca results, for
LLVMIsAAllocaInst), global variables (LLVMIsAGlobalVariable), string
constants from LLVMBuildGlobalStringPtr, function values and formal
parameters. -/
inductive Value where
  | constInt : Ty → Int → Value
  | inst : Nat → Ty → Bool → Value
  | globalVar : Nat → Ty → Value
  | strConst : Nat → Value
  | funcVal : String → Ty → Value
  | paramVal : String → Nat → Ty → Value
deriving DecidableEq, Repr

/-- LLVMTypeOf. -/
def Value.ty : Value → Ty
  | .constInt t _ => t
  | .inst _ t _ => t
  | .globalVar _ e => .ptr e
  | .strConst _ => .ptr .i8
  | .funcVal _ s => .ptr s
  | .paramVal _ _ t => t

/-- LLVMIsAAllocaInst. -/
def Value.isAllocaInst : Value → Bool
  | .inst _ _ a => a
  | _ => false

/-- LLVMIsAGlobalVariable. -/
def Value.isGlobalVariable : Value → Bool
  | .globalVar _ _ => true
  | _ => false

/-- LLVMConstNull for the integer types the generator applies it to. -/
def constNull (t : Ty) : Value := .constInt t 0

/-- IR instructions emitted by the generator. Block targets are block
ids (Nat). -/
inductive Instr where
  | add : Value → Value → Instr
  | sub : Value → Value → Instr
  | mul : Value → Value → Instr
  | sdiv : Value → Value → Instr
  | icmp : Pred → Value → Value → Instr
  | neg : Value → Instr
  | load : Ty → Value → Instr
  | store : Value → Value → Instr
  | alloca : Ty → String → Instr
  | phi : Ty → List (Value × Nat) → Instr
  | call : Ty → Value → List Value → Instr
  | fpext : Value → Ty → Instr
  | br : Nat → Instr
  | condbr : Value → Nat → Nat → Instr
  | retVal : Value → Instr
  | retVoid : Instr
deriving DecidableEq, Repr

/-- Is this instruction a block terminator? -/
def Instr.isTerminator : Instr → Bool
  | .br _ => true
  | .condbr _ _ _ => true
  | .retVal _ => true
  | .retVoid => true
  | _ => false

/-- The static type of an instruction result. -/
def Instr.resultTy : Instr → Ty
  | .add l _ => l.ty
  | .sub l _ => l.ty
  | .mul l _ => l.ty
  | .sdiv l _ => l.ty
  | .icmp _ _ _ => .i1
  | .neg v => v.ty
  | .load t _ => t
  | .store _ _ => .void
  | .alloca t _ => .ptr t
  | .phi t _ => t
  | .call s _ _ => match s with | .fn _ r _ => r | _ => .void
  | .fpext _ t => t
  | .br _ => .void
  | .condbr _ _ _ => .void
  | .retVal _ => .void
  | .retVoid => .void

def Instr.isAllocaI : Instr → Bool
  | .alloca _ _ => true
  | _ => false

/-- A basic block: a name and its instructions (result id, instruction)
in order. -/
structure Block where
  name : String
  instrs : List (Nat × Instr)
deriving DecidableEq, Repr

/-- A function in the module: name, signature type, and the ids of the
blocks appended to it, in order (head is the entry block). -/
structure Func where
  name : String
  sig : Ty
  blockIds : List Nat
deriving DecidableEq, Repr

/-- A module-level global: for plain globals `content` is none (null
initializer); for format strings it is the string contents. -/
structure GlobalDef where
  gid : Nat
  gname : String
  content : Option String
  elemTy : Ty
deriving DecidableEq, Repr

/-- One symbol-table entry (struct Symbol in llvm_generator.c). -/
structure Sym where
  name : String
  value : Value
  ty : Ty
  isParam : Bool
deriving DecidableEq, Repr

/-- The generator state (LLVMGeneratorState plus the builder/module it
owns).  `blocks` is the context-wide pool of created blocks; a block is
part of a function only if its id is in that function's `blockIds`.
`localScopes` is the scope chain above the global scope, innermost
first; `find_symbol` walks it and then the global scope, mirroring the
parent links of struct SymbolTable. -/
structure GenState where
  blocks : List (Nat × Block)
  funcs : List Func
  globals : List GlobalDef
  nextId : Nat
  insertPt : Option Nat
  currentFunction : Option String
  pipedValue : Option Value
  loopCondBB : Option Nat
  loopEndBB : Option Nat
  globalScope : List Sym
  localScopes : List (List Sym)
  diags : List String
deriving DecidableEq, Repr

/-- create_llvm_generator_state: empty module, no insertion point, no
current function, empty global scope, current scope = global scope. -/
def initState : GenState :=
  ⟨[], [], [], 0, none, none, none, none, none, [], [], []⟩

/-- Record a diagnostic (fprintf to stderr in the C code). -/
def addDiag (st : GenState) (msg : String) : GenState :=
  { st with diags := msg :: st.diags }

/-- First-match association lookup over the block pool (the loop of
the lookup helpers). -/
def assocBlock : List (Nat × Block) → Nat → Option Block
  | [], _ => none
  | q :: rest, b => if q.1 = b then some q.2 else assocBlock rest b

def lookupBlock (st : GenState) (bid : Nat) : Option Block :=
  assocBlock st.blocks bid

def updateBlock (st : GenState) (bid : Nat) (f : Block → Block) : GenState :=
  { st with blocks := st.blocks.map (fun p => if p.1 = bid then (p.1, f p.2) else p) }

/-- LLVMGetBasicBlockTerminator: the last instruction, when it is a
terminator. -/
def blockTerminator (st : GenState) (bid : Nat) : Option Instr :=
  match lookupBlock st bid with
  | none => none
  | some b =>
    match b.instrs.getLast? with
    | some (_, i) => if i.isTerminator then some i else none
    | none => none

/-- LLVMAppendBasicBlockInContext: create a block and append it to the
named function. -/
def appendBasicBlockInFunc (st : GenState) (fname bname : String) : GenState × Nat :=
  let bid := st.nextId
  ({ st with
      nextId := bid + 1
      blocks := st.blocks ++ [(bid, ⟨bname, []⟩)]
      funcs := st.funcs.map (fun f =>
        if f.name = fname then { f with blockIds := f.blockIds ++ [bid] } else f) },
   bid)

/-- LLVMCreateBasicBlockInContext: create a detached block (in the
context pool, not in any function). -/
def createBasicBlock (st : GenState) (bname : String) : GenState × Nat :=
  let bid := st.nextId
  ({ st with
      nextId := bid + 1
      blocks := st.blocks ++ [(bid, ⟨bname, []⟩)] },
   bid)

/-- LLVMAppendExistingBasicBlock. -/
def appendExistingBasicBlock (st : GenState) (fname : String) (bid : Nat) : GenState :=
  { st with funcs := st.funcs.map (fun f =>
      if f.name = fname then { f with blockIds := f.blockIds ++ [bid] } else f) }

/-- LLVMPositionBuilderAtEnd. -/
def positionAtEnd (st : GenState) (bid : Nat) : GenState :=
  { st with insertPt := some bid }

/-- LLVMGetBasicBlockParent (by searching the module's functions). -/
def blockParent (st : GenState) (bid : Nat) : Option String :=
  (st.funcs.find? (fun f => bid ∈ f.blockIds)).map Func.name

/-- Find a function by name (LLVMGetNamedFunction). -/
def findFunc (st : GenState) (fname : String) : Option Func :=
  st.funcs.find? (fun f => f.name = fname)

/-- LLVMGetEntryBasicBlock of the named function. -/
def getEntryBasicBlock (st : GenState) (fname : String) : Option Nat :=
  (findFunc st fname).bind (fun f => f.blockIds.head?)

/-- LLVMAddFunction: append a function declaration to the module. -/
def addFunction (st : GenState) (fname : String) (sig : Ty) : GenState :=
  { st with funcs := st.funcs ++ [⟨fname, sig, []⟩] }

/-- Emit an instruction at the current insertion point (LLVMBuildAdd,
LLVMBuildICmp, ...), returning the fresh result value. -/
def buildInstr (st : GenState) (i : Instr) : GenState × Value :=
  let iid := st.nextId
  let st' := { st with nextId := iid + 1 }
  let st'' :=
    match st'.insertPt with
    | some bid => updateBlock st' bid (fun b => { b with instrs := b.instrs ++ [(iid, i)] })
    | none => st'
  (st'', .inst iid i.resultTy i.isAllocaI)

/-- Emit an instruction, producing `some` result (for expressions). -/
def emitSome (st : GenState) (i : Instr) : GenState × Option Value :=
  let pr := buildInstr st i
  (pr.1, some pr.2)

/-- The temporary-builder pattern of the C code: position a fresh
builder at the entry block of `fname`, before its first instruction
(or at the end when the block is empty), and build an alloca there.
Either way the alloca becomes the first instruction of the entry
block. -/
def buildAllocaAtEntry (st : GenState) (fname : String) (t : Ty) (nm : String) :
    GenState × Value :=
  let iid := st.nextId
  let st' := { st with nextId := iid + 1 }
  let v : Value := .inst iid (.ptr t) true
  match getEntryBasicBlock st' fname with
  | some ebb =>
    (updateBlock st' ebb (fun b => { b with instrs := (iid, Instr.alloca t nm) :: b.instrs }), v)
  | none => (st', v)

/-- LLVMAddGlobal + LLVMSetInitializer(ConstNull). -/
def addGlobal (st : GenState) (t : Ty) (nm : String) : GenState × Value :=
  let gid := st.nextId
  ({ st with
      nextId := gid + 1
      globals := st.globals ++ [⟨gid, nm, none, t⟩] },
   .globalVar gid t)

/-- LLVMBuildGlobalStringPtr: creates a fresh read-only string global
in the module on every call and returns an i8 pointer to it. -/
def buildGlobalStringPtr (st : GenState) (s nm : String) : GenState × Value :=
  let gid := st.nextId
  ({ st with
      nextId := gid + 1
      globals := st.globals ++ [⟨gid, nm, some s, .i8⟩] },
   .strConst gid)

/-! ### Symbol table (struct SymbolTable) -/

def SYMBOL_TABLE_SIZE : Nat := 100

/-- add_symbol: refuse on overflow, update in place on redefinition,
otherwise append. -/
def add_symbol (scope : List Sym) (nm : String) (v : Value) (t : Ty) (isP : Bool) :
    List Sym :=
  if SYMBOL_TABLE_SIZE ≤ scope.length then scope
  else if scope.any (fun s => s.name = nm) then
    scope.map (fun s => if s.name = nm then ⟨nm, v, t, isP⟩ else s)
  else scope ++ [⟨nm, v, t, isP⟩]

/-- Search one scope (the inner loop of find_symbol): first match
wins. -/
def findInScope : List Sym → String → Option Sym
  | [], _ => none
  | s :: rest, nm => if s.name = nm then some s else findInScope rest nm

/-- Walk a chain of scopes, innermost first. -/
def findInChain : List (List Sym) → String → Option Sym
  | [], _ => none
  | sc :: rest, nm =>
    match findInScope sc nm with
    | some s => some s
    | none => findInChain rest nm

/-- find_symbol starting from the current scope: walk the local chain
innermost-first, then the global scope. -/
def find_symbol (st : GenState) (nm : String) : Option Sym :=
  match findInChain st.localScopes nm with
  | some s => some s
  | none => findInScope st.globalScope nm

/-- find_symbol starting from the global table (used for function
calls, whose namespace is flat). -/
def find_symbol_global (st : GenState) (nm : String) : Option Sym :=
  findInScope st.globalScope nm

/-- Bind a name in the current innermost scope (add_symbol on
current_scope_symbols). -/
def addCurrentScope (st : GenState) (nm : String) (v : Value) (t : Ty) (isP : Bool) :
    GenState :=
  match st.localScopes with
  | [] => { st with globalScope := add_symbol st.globalScope nm v t isP }
  | s :: rest => { st with localScopes := add_symbol s nm v t isP :: rest }

/-- The printf signature: (i8*, ...) -> i32. -/
def printfSig : Ty := .fn [.ptr .i8] .i32 true

/-- get_printf_function: declare printf lazily on first use. -/
def get_printf_function (st : GenState) : GenState × Value :=
  if (findFunc st "printf").isSome then (st, .funcVal "printf" printfSig)
  else (addFunction st "printf" printfSig, .funcVal "printf" printfSig)

/-! ### AST (ast.h) -/

/-- OperatorType. -/
inductive Op where
  | plus | minus | multiply | divide
  | eq | neq | lt | gt | lte | gte
  | and | or | not
deriving DecidableEq, Repr

/-- ASTNode.  Statement-list bodies are `Option Ast` checked to be a
`stmtlist`, mirroring the `node && node->type == NODE_STATEMENT_LIST`
guards of the C code.  A for loop's range slot is `Option Ast` (NULL
from the parser for piped loops). -/
inductive Ast where
  | number (v : Int)
  | ident (nm : String)
  | binop (op : Op) (l r : Ast)
  | unop (op : Op) (e : Ast)
  | assign (nm : String) (e : Ast)
  | funcdef (nm : String) (params : List String) (body : Option Ast)
  | funccall (nm : String) (args : List Ast)
  | pipeline (l r : Ast)
  | ifelse (cond : Ast) (thenB : Option Ast) (elseB : Option Ast)
  | forloop (rng : Option Ast) (var : String) (body : Option Ast)
  | range (s e : Ast)
  | ret (v : Option Ast)
  | stmtlist (stmts : List Ast)
  | printcall (e : Option Ast)

/-! ### Non-recursive lowerers -/

/-- codegen_number. -/
def codegen_number (v : Int) : Value := Value.constInt Ty.i32 v

/-- codegen_identifier: look the name up from the current scope; load
through alloca storage, return function handles unloaded. -/
def codegen_identifier (st : GenState) (nm : String) : GenState × Option Value :=
  match find_symbol st nm with
  | none => (addDiag st "Undeclared identifier", none)
  | some sym =>
    if sym.value.isAllocaInst then
      match sym.value.ty with
      | Ty.ptr elem => emitSome st (Instr.load elem sym.value)
      | _ => (st, some sym.value)
    else (st, some sym.value)

/-- The format-selection tail of codegen_print_call, after the
argument value is in hand: pick the format string by the LLVM type
kind of the argument and emit the printf call. -/
def print_with_arg (st : GenState) (arg0 : Value) : GenState × Option Value :=
  let pf := get_printf_function st
  match arg0.ty with
  | Ty.i1 =>
    let fr := buildGlobalStringPtr pf.1 "%d\n" ".fmt_int_ln"
    emitSome fr.1 (Instr.call printfSig pf.2 [fr.2, arg0])
  | Ty.i8 =>
    let fr := buildGlobalStringPtr pf.1 "%d\n" ".fmt_int_ln"
    emitSome fr.1 (Instr.call printfSig pf.2 [fr.2, arg0])
  | Ty.i32 =>
    let fr := buildGlobalStringPtr pf.1 "%d\n" ".fmt_int_ln"
    emitSome fr.1 (Instr.call printfSig pf.2 [fr.2, arg0])
  | Ty.f32 =>
    let fr := buildGlobalStringPtr pf.1 "%f\n" ".fmt_float_ln"
    let ex := buildInstr fr.1 (Instr.fpext arg0 Ty.f64)
    emitSome ex.1 (Instr.call printfSig pf.2 [fr.2, ex.2])
  | Ty.f64 =>
    let fr := buildGlobalStringPtr pf.1 "%f\n" ".fmt_float_ln"
    emitSome fr.1 (Instr.call printfSig pf.2 [fr.2, arg0])
  | Ty.ptr Ty.i8 =>
    let fr := buildGlobalStringPtr pf.1 "%s\n" ".fmt_str_ln"
    emitSome fr.1 (Instr.call printfSig pf.2 [fr.2, arg0])
  | _ =>
    let st2 := addDiag pf.1 "print called with unhandled LLVM type"
    let fr := buildGlobalStringPtr st2 "Value(type_unhandled_by_print)\n" ".fmt_unknown_ln"
    emitSome fr.1 (Instr.call printfSig pf.2 [fr.2])

/-- Bind formal parameters at the end of the entry block: alloca a
slot, store the incoming value, register the name (the loop in
codegen_func_def). -/
def bindParams (st : GenState) (fname : String) : List String → Nat → GenState
  | [], _ => st
  | pn :: rest, i =>
    let al := buildInstr st (Instr.alloca Ty.i32 pn)
    let st2 := (buildInstr al.1 (Instr.store (Value.paramVal fname i Ty.i32) al.2)).1
    let st3 := addCurrentScope st2 pn al.2 Ty.i32 true
    bindParams st3 fname rest (i + 1)

/-- The prologue of codegen_func_def, up to and including parameter
binding: declare the function, register it in the GLOBAL scope, set
the current function, replace the scope chain by one fresh scope whose
parent is the global scope, create the entry block, and bind the
parameters there.  The state handed to the body lowering is exactly
this function's output. -/
def func_def_setup (st : GenState) (nm : String) (params : List String) :
    GenState × Value :=
  let sig := Ty.fn (params.map (fun _ => Ty.i32)) Ty.i32 false
  let fv := Value.funcVal nm sig
  let st1 := addFunction st nm sig
  let st2 := { st1 with globalScope := add_symbol st1.globalScope nm fv sig false }
  let st3 := { st2 with currentFunction := some nm, localScopes := [[]] }
  let eb := appendBasicBlockInFunc st3 nm "entry"
  let st5 := positionAtEnd eb.1 eb.2
  (bindParams st5 nm params 0, fv)

/-- The `if not already terminated, branch to dest` pattern used at
the ends of then/else/loop-body blocks. -/
def brIfUnterminated (st : GenState) (dest : Nat) : GenState :=
  match st.insertPt with
  | some bb =>
    if (blockTerminator st bb).isNone then (buildInstr st (Instr.br dest)).1 else st
  | none => st

/-- The implicit-return epilogue of codegen_func_def: if the final
block has no terminator, return void for a void function and 0
otherwise. -/
def defaultRetIfUnterminated (st : GenState) (retTy : Ty) : GenState :=
  match st.insertPt with
  | some bb =>
    if (blockTerminator st bb).isNone then
      if retTy = Ty.void then (buildInstr st Instr.retVoid).1
      else (buildInstr st (Instr.retVal (Value.constInt Ty.i32 0))).1
    else st
  | none => st

/-! ### The mutually recursive code generator.

Each function destructures the fuel; fuel 0 returns the state
unchanged with no value.  All recursive calls use the destructured
(smaller) fuel, so the mutual recursion is structural on the fuel. -/

mutual

/-- codegen_expr: the expression dispatch switch.  Note that
NODE_FUNCTION_DEF, NODE_FOR_LOOP, NODE_RETURN and NODE_STATEMENT_LIST
have no case here and fall to the default diagnostic, exactly as in
the C switch. -/
def codegen_expr : Nat → GenState → Ast → GenState × Option Value
  | 0, st, _ => (st, none)
  | fuel+1, st, n =>
    match n with
    | Ast.number v => (st, some (codegen_number v))
    | Ast.ident nm => codegen_identifier st nm
    | Ast.binop op l r => codegen_binop fuel st op l r
    | Ast.unop op e => codegen_unaryop fuel st op e
    | Ast.assign nm e => codegen_assignment fuel st nm e
    | Ast.funccall nm args => codegen_func_call fuel st nm args none
    | Ast.pipeline l r => codegen_pipeline fuel st l r
    | Ast.ifelse c t e => codegen_if_else fuel st c t e
    | Ast.printcall e => codegen_print_call fuel st e
    | Ast.range s e => codegen_range fuel st s e
    | _ => (addDiag st "AST node type is not a recognized expression type", none)

/-- The `body_stmts_node && body_stmts_node->type == NODE_STATEMENT_LIST`
guard before lowering a body list. -/
def lower_body_list : Nat → GenState → Option Ast → GenState
  | 0, st, _ => st
  | fuel+1, st, body =>
    match body with
    | some (Ast.stmtlist stmts) => codegen_statement_list_payload fuel st stmts
    | _ => st

/-- codegen_binop.  For `and`/`or` the right operand is lowered only
inside the freshly created eval-right block; the phi's right
predecessor is the insertion block current after that lowering. -/
def codegen_binop : Nat → GenState → Op → Ast → Ast → GenState × Option Value
  | 0, st, _, _, _ => (st, none)
  | fuel+1, st, op, l, r =>
    let p1 := codegen_expr fuel st l
    let p2 := if op = Op.and ∨ op = Op.or then (p1.1, (none : Option Value))
              else codegen_expr fuel p1.1 r
    match p1.2 with
    | none => (addDiag p2.1 "Error in operands for binary operation", none)
    | some L =>
      match op with
      | Op.and =>
        match p2.1.insertPt with
        | none => (p2.1, none)
        | some evalLblock =>
          match blockParent p2.1 evalLblock with
          | none => (p2.1, none)
          | some fn =>
            let prR := appendBasicBlockInFunc p2.1 fn "and.evalR"
            let prM := appendBasicBlockInFunc prR.1 fn "and.merge"
            let prL := buildInstr prM.1 (Instr.icmp Pred.ne L (constNull L.ty))
            let stD := (buildInstr prL.1 (Instr.condbr prL.2 prR.2 prM.2)).1
            let stE := positionAtEnd stD prR.2
            let pR := codegen_expr fuel stE r
            let Rv := pR.2.getD (Value.constInt Ty.i1 0)
            let prB := buildInstr pR.1 (Instr.icmp Pred.ne Rv (constNull Rv.ty))
            let rEvaluatedBlock := prB.1.insertPt.getD 0
            let stG := (buildInstr prB.1 (Instr.br prM.2)).1
            let stH := positionAtEnd stG prM.2
            let prP := buildInstr stH
              (Instr.phi Ty.i1 [(prB.2, rEvaluatedBlock), (Value.constInt Ty.i1 0, evalLblock)])
            (prP.1, some prP.2)
      | Op.or =>
        match p2.1.insertPt with
        | none => (p2.1, none)
        | some evalLblock =>
          match blockParent p2.1 evalLblock with
          | none => (p2.1, none)
          | some fn =>
            let prR := appendBasicBlockInFunc p2.1 fn "or.evalR"
            let prM := appendBasicBlockInFunc prR.1 fn "or.merge"
            let prL := buildInstr prM.1 (Instr.icmp Pred.ne L (constNull L.ty))
            let stD := (buildInstr prL.1 (Instr.condbr prL.2 prM.2 prR.2)).1
            let stE := positionAtEnd stD prR.2
            let pR := codegen_expr fuel stE r
            let Rv := pR.2.getD (Value.constInt Ty.i1 0)
            let prB := buildInstr pR.1 (Instr.icmp Pred.ne Rv (constNull Rv.ty))
            let rEvaluatedBlock := prB.1.insertPt.getD 0
            let stG := (buildInstr prB.1 (Instr.br prM.2)).1
            let stH := positionAtEnd stG prM.2
            let prP := buildInstr stH
              (Instr.phi Ty.i1 [(Value.constInt Ty.i1 1, evalLblock), (prB.2, rEvaluatedBlock)])
            (prP.1, some prP.2)
      | _ =>
        match p2.2 with
        | none => (addDiag p2.1 "Error in operands for binary operation", none)
        | some R =>
          match op with
          | Op.plus => emitSome p2.1 (Instr.add L R)
          | Op.minus => emitSome p2.1 (Instr.sub L R)
          | Op.multiply => emitSome p2.1 (Instr.mul L R)
          | Op.divide => emitSome p2.1 (Instr.sdiv L R)
          | Op.lt => emitSome p2.1 (Instr.icmp Pred.slt L R)
          | Op.gt => emitSome p2.1 (Instr.icmp Pred.sgt L R)
          | Op.lte => emitSome p2.1 (Instr.icmp Pred.sle L R)
          | Op.gte => emitSome p2.1 (Instr.icmp Pred.sge L R)
          | Op.eq => emitSome p2.1 (Instr.icmp Pred.eq L R)
          | Op.neq => emitSome p2.1 (Instr.icmp Pred.ne L R)
          | _ => (addDiag p2.1 "Unknown binary operator", none)

/-- codegen_unaryop. -/
def codegen_unaryop : Nat → GenState → Op → Ast → GenState × Option Value
  | 0, st, _, _ => (st, none)
  | fuel+1, st, op, e =>
    let p := codegen_expr fuel st e
    match p.2 with
    | none => (p.1, none)
    | some v =>
      match op with
      | Op.not => emitSome p.1 (Instr.icmp Pred.eq v (constNull v.ty))
      | Op.minus => emitSome p.1 (Instr.neg v)
      | _ => (addDiag p.1 "Unknown unary operator", none)

/-- codegen_assignment: implicit declaration allocates at the entry
block of the current function (or a module global outside one). -/
def codegen_assignment : Nat → GenState → String → Ast → GenState × Option Value
  | 0, st, _, _ => (st, none)
  | fuel+1, st, nm, e =>
    let p := codegen_expr fuel st e
    match p.2 with
    | none => (addDiag p.1 "Expression for assignment failed to generate code", none)
    | some v =>
      match find_symbol p.1 nm with
      | none =>
        let valTy := v.ty
        let pr :=
          match p.1.currentFunction with
          | some f => buildAllocaAtEntry p.1 f valTy nm
          | none => addGlobal p.1 valTy nm
        let st2 := addCurrentScope pr.1 nm pr.2 valTy false
        let st3 := (buildInstr st2 (Instr.store v pr.2)).1
        (st3, some v)
      | some sym =>
        let storagePtr := sym.value
        if !storagePtr.isAllocaInst && !storagePtr.isGlobalVariable then
          (addDiag p.1 "Cannot assign to non-modifiable variable", none)
        else
          let elemTy := match storagePtr.ty with | Ty.ptr t => t | t => t
          let st1 := if v.ty ≠ elemTy then addDiag p.1 "Type mismatch in assignment" else p.1
          let st2 := (buildInstr st1 (Instr.store v storagePtr)).1
          (st2, some v)

/-- codegen_func_def: declare, register in the global scope, lower the
body in a fresh scope parented at the global scope, default-return,
then restore the saved builder position, function and scope. -/
def codegen_func_def : Nat → GenState → String → List String → Option Ast →
    GenState × Option Value
  | 0, st, _, _, _ => (st, none)
  | fuel+1, st, nm, params, body =>
    let preservedInsert := st.insertPt
    let preservedFunc := st.currentFunction
    let preservedScopes := st.localScopes
    let pr := func_def_setup st nm params
    let st7 := lower_body_list fuel pr.1 body
    let st8 := defaultRetIfUnterminated st7 Ty.i32
    ({ st8 with insertPt := preservedInsert, currentFunction := preservedFunc,
                localScopes := preservedScopes }, some pr.2)

/-- codegen_func_call: resolve in the global scope, check arity
(counting a piped leading argument) before lowering any argument, then
lower the arguments and emit the call with the piped value first. -/
def codegen_func_call : Nat → GenState → String → List Ast → Option Value →
    GenState × Option Value
  | 0, st, _, _, _ => (st, none)
  | fuel+1, st, nm, args, piped =>
    match find_symbol_global st nm with
    | none => (addDiag st "Call to undefined function", none)
    | some sym =>
      match sym.ty with
      | Ty.fn ps _ _ =>
        let actual := args.length + (if piped.isSome then 1 else 0)
        if ps.length ≠ actual then
          (addDiag st "Incorrect number of arguments for function", none)
        else
          let q := codegen_arg_list fuel st args
          match q.2 with
          | none => (q.1, none)
          | some vs =>
            let callArgs := (match piped with | some pv => [pv] | none => []) ++ vs
            emitSome q.1 (Instr.call sym.ty sym.value callArgs)
      | _ => (addDiag st "Symbol is not a function or has invalid type information", none)

/-- The argument-lowering loop of codegen_func_call. -/
def codegen_arg_list : Nat → GenState → List Ast → GenState × Option (List Value)
  | 0, st, _ => (st, none)
  | _+1, st, [] => (st, some [])
  | fuel+1, st, a :: as =>
    let p := codegen_expr fuel st a
    match p.2 with
    | none => (addDiag p.1 "Argument for function failed to generate code", none)
    | some v =>
      let q := codegen_arg_list fuel p.1 as
      match q.2 with
      | none => (q.1, none)
      | some vs => (q.1, some (v :: vs))

/-- codegen_pipeline: lower the left expression, save the piped slot,
set it to the left value, dispatch on the right operator shape (a for
loop gets the left AST spliced into its range slot), then restore the
piped slot on every path. -/
def codegen_pipeline : Nat → GenState → Ast → Ast → GenState × Option Value
  | 0, st, _, _ => (st, none)
  | fuel+1, st, lhs, rhs =>
    let p := codegen_expr fuel st lhs
    let preserved := p.1.pipedValue
    let st1 := { p.1 with pipedValue := p.2 }
    let q : GenState × Option Value :=
      match rhs with
      | Ast.funccall nm args => codegen_func_call fuel st1 nm args p.2
      | Ast.ifelse c t e => codegen_if_else fuel st1 c t e
      | Ast.forloop _ var body => codegen_expr fuel st1 (Ast.forloop (some lhs) var body)
      | Ast.printcall e => codegen_print_call fuel st1 e
      | _ => (addDiag st1 "Invalid AST node type on RHS of pipeline", none)
    ({ q.1 with pipedValue := preserved }, q.2)

/-- codegen_if_else: then is appended immediately; else and merge are
created detached, and else is appended only when an else-list exists. -/
def codegen_if_else : Nat → GenState → Ast → Option Ast → Option Ast →
    GenState × Option Value
  | 0, st, _, _, _ => (st, none)
  | fuel+1, st, cond, thenB, elseB =>
    let p := codegen_expr fuel st cond
    match p.2 with
    | none => (p.1, none)
    | some c0 =>
      let pc :=
        if c0.ty ≠ Ty.i1 then buildInstr p.1 (Instr.icmp Pred.ne c0 (constNull c0.ty))
        else (p.1, c0)
      match pc.1.currentFunction with
      | none => (addDiag pc.1 "If statement found outside of a function context", none)
      | some f =>
        let prT := appendBasicBlockInFunc pc.1 f "then"
        let prE := createBasicBlock prT.1 "else"
        let prM := createBasicBlock prE.1 "ifcont"
        let st5 := (buildInstr prM.1
          (Instr.condbr pc.2 prT.2 (if elseB.isSome then prE.2 else prM.2))).1
        let st6 := positionAtEnd st5 prT.2
        let st7 := lower_body_list fuel st6 thenB
        let st8 := brIfUnterminated st7 prM.2
        let st9 :=
          match elseB with
          | some eb =>
            let sA := appendExistingBasicBlock st8 f prE.2
            let sB := positionAtEnd sA prE.2
            let sC := lower_body_list fuel sB (some eb)
            brIfUnterminated sC prM.2
          | none => st8
        let s10 := appendExistingBasicBlock st9 f prM.2
        (positionAtEnd s10 prM.2, none)

/-- codegen_range: evaluate start and end for validation only; a range
has no value. -/
def codegen_range : Nat → GenState → Ast → Ast → GenState × Option Value
  | 0, st, _, _ => (st, none)
  | fuel+1, st, s, e =>
    let p := codegen_expr fuel st s
    let q := codegen_expr fuel p.1 e
    if p.2.isNone || q.2.isNone then
      (addDiag q.1 "Error evaluating start or end expressions within range node", none)
    else (q.1, none)

/-- codegen_for_loop: four blocks cond/body/inc/end, loop variable in
an entry-block alloca, condition is a signed less-than against the end
value, increment by one. -/
def codegen_for_loop : Nat → GenState → Option Ast → String → Option Ast →
    GenState × Option Value
  | 0, st, _, _, _ => (st, none)
  | fuel+1, st, rng, var, body =>
    match st.currentFunction with
    | none => (addDiag st "For loop found outside of a function", none)
    | some f =>
      match rng with
      | some (Ast.range sAst eAst) =>
        let p := codegen_expr fuel st sAst
        let q := codegen_expr fuel p.1 eAst
        match p.2, q.2 with
        | some startV, some endV =>
          let pr := buildAllocaAtEntry q.1 f Ty.i32 var
          let slot := pr.2
          let oldScopes := pr.1.localScopes
          let st2 := { pr.1 with localScopes := [] :: pr.1.localScopes }
          let st3 := addCurrentScope st2 var slot Ty.i32 false
          let st4 := (buildInstr st3 (Instr.store startV slot)).1
          let oldCont := st4.loopCondBB
          let oldBrk := st4.loopEndBB
          let prC := appendBasicBlockInFunc st4 f "loop.cond"
          let prBo := appendBasicBlockInFunc prC.1 f "loop.body"
          let prI := appendBasicBlockInFunc prBo.1 f "loop.inc"
          let prEn := appendBasicBlockInFunc prI.1 f "loop.end"
          let st9 := { prEn.1 with loopCondBB := some prI.2, loopEndBB := some prEn.2 }
          let s10 := (buildInstr st9 (Instr.br prC.2)).1
          let s11 := positionAtEnd s10 prC.2
          let ldI := buildInstr s11 (Instr.load Ty.i32 slot)
          let cmpI := buildInstr ldI.1 (Instr.icmp Pred.slt ldI.2 endV)
          let s14 := (buildInstr cmpI.1 (Instr.condbr cmpI.2 prBo.2 prEn.2)).1
          let s15 := positionAtEnd s14 prBo.2
          let oldPiped := s15.pipedValue
          let s16 := { s15 with pipedValue := some ldI.2 }
          let s17 := lower_body_list fuel s16 body
          let s18 := { s17 with pipedValue := oldPiped }
          let s19 := brIfUnterminated s18 prI.2
          let s20 := positionAtEnd s19 prI.2
          let ldJ := buildInstr s20 (Instr.load Ty.i32 slot)
          let addJ := buildInstr ldJ.1 (Instr.add ldJ.2 (Value.constInt Ty.i32 1))
          let s23 := (buildInstr addJ.1 (Instr.store addJ.2 slot)).1
          let s24 := (buildInstr s23 (Instr.br prC.2)).1
          let s25 := positionAtEnd s24 prEn.2
          ({ s25 with localScopes := oldScopes, loopCondBB := oldCont,
                      loopEndBB := oldBrk }, none)
        | _, _ =>
          (addDiag q.1 "Could not evaluate start or end expressions for the for loop range",
           none)
      | _ => (addDiag st "For loop requires a valid range expression", none)

/-- codegen_return. -/
def codegen_return : Nat → GenState → Option Ast → GenState × Option Value
  | 0, st, _ => (st, none)
  | fuel+1, st, v? =>
    match st.currentFunction with
    | none => (addDiag st "Return statement found outside of a function", none)
    | some _ =>
      match v? with
      | some e =>
        let p := codegen_expr fuel st e
        match p.2 with
        | none => (p.1, none)
        | some v => emitSome p.1 (Instr.retVal v)
      | none => emitSome st Instr.retVoid

/-- codegen_print_call: explicit argument, else the piped value, else
a diagnostic. -/
def codegen_print_call : Nat → GenState → Option Ast → GenState × Option Value
  | 0, st, _ => (st, none)
  | fuel+1, st, e? =>
    match e? with
    | some e =>
      let p := codegen_expr fuel st e
      match p.2 with
      | none => (p.1, none)
      | some arg => print_with_arg p.1 arg
    | none =>
      match st.pipedValue with
      | some arg => print_with_arg st arg
      | none => (addDiag st "print called with no argument", none)

/-- codegen_statement_list_payload: statements in order; once the
current block has a terminator the remaining statements are skipped; a
return statement ends the list immediately after lowering. -/
def codegen_statement_list_payload : Nat → GenState → List Ast → GenState
  | 0, st, _ => st
  | _+1, st, [] => st
  | fuel+1, st, stmt :: rest =>
    if (match st.insertPt with
        | some bb => (blockTerminator st bb).isSome
        | none => false) then st
    else
      match stmt with
      | Ast.funcdef nm ps body =>
        codegen_statement_list_payload fuel (codegen_func_def fuel st nm ps body).1 rest
      | Ast.ret v => (codegen_return fuel st v).1
      | Ast.forloop r v b =>
        codegen_statement_list_payload fuel (codegen_for_loop fuel st r v b).1 rest
      | Ast.stmtlist l =>
        codegen_statement_list_payload fuel (codegen_statement_list_payload fuel st l) rest
      | e => codegen_statement_list_payload fuel (codegen_expr fuel st e).1 rest

end

/-- llvm_generate_code: create the synthetic `main`, lower the root
statement list inside it with a fresh function-level scope parented at
global, default-return 0, restore. -/
def llvm_generate_code (fuel : Nat) (st : GenState) (root : Ast) : GenState :=
  match root with
  | Ast.stmtlist stmts =>
    let st1 := addFunction st "main" (Ty.fn [] Ty.i32 false)
    let pr := appendBasicBlockInFunc st1 "main" "main_script_entry"
    let st3 := positionAtEnd pr.1 pr.2
    let preservedFunc := st3.currentFunction
    let preservedScopes := st3.localScopes
    let st4 := { st3 with currentFunction := some "main", localScopes := [[]] }
    let st5 := codegen_statement_list_payload fuel st4 stmts
    let st6 :=
      match st5.insertPt with
      | some bb =>
        if (blockTerminator st5 bb).isNone then
          (buildInstr st5 (Instr.retVal (Value.constInt Ty.i32 0))).1
        else st5
      | none => st5
    { st6 with currentFunction := preservedFunc, localScopes := preservedScopes }
  | _ =>
    let st1 := addDiag st "AST root must be a statement list"
    let st2 := addFunction st1 "main_ast_error" (Ty.fn [] Ty.i32 false)
    let pr := appendBasicBlockInFunc st2 "main_ast_error" "entry_ast_error"
    let st4 := positionAtEnd pr.1 pr.2
    (buildInstr st4 (Instr.retVal (Value.constInt Ty.i32 1))).1

/-! ### A small-step executor for the emitted IR.

Used to state the run-time meaning of emitted loops and branches.
Integer values are i32 two's-complement, modelled as integers
normalized into [-2^31, 2^31).  External calls (printf) have no
effect on the machine state. -/

/-- Two's-complement wraparound at 32 bits. -/
def wrap32 (x : Int) : Int := (x + 2147483648) % 4294967296 - 2147483648

/-- Environment/memory as association lists; the head shadows. -/
def assocInt : List (Nat × Int) → Nat → Option Int
  | [], _ => none
  | q :: rest, i => if q.1 = i then some q.2 else assocInt rest i

def envGet (env : List (Nat × Int)) (i : Nat) : Int :=
  (assocInt env i).getD 0

def envSet (env : List (Nat × Int)) (i : Nat) (v : Int) : List (Nat × Int) :=
  (i, v) :: env

/-- Evaluate a value: constants wrap at their width, instruction
results read the environment. -/
def evalVal (env : List (Nat × Int)) : Value → Int
  | .constInt t v =>
    match t with
    | .i1 => v % 2
    | .i8 => v % 256
    | .i32 => wrap32 v
    | _ => v
  | .inst i _ _ => envGet env i
  | _ => 0

/-- The memory cell a pointer value designates: alloca results and
globals address their own id (ids are globally unique). -/
def addrOf : Value → Nat
  | .inst i _ _ => i
  | .globalVar g _ => g
  | .strConst g => g
  | _ => 0

def evalPred : Pred → Int → Int → Bool
  | .eq, a, b => a = b
  | .ne, a, b => a ≠ b
  | .slt, a, b => a < b
  | .sgt, a, b => b < a
  | .sle, a, b => a ≤ b
  | .sge, a, b => b ≤ a

/-- Result of executing the instructions of one block. -/
inductive BlockRes where
  | jump : List (Nat × Int) → List (Nat × Int) → Nat → BlockRes
  | halt : List (Nat × Int) → List (Nat × Int) → Int → BlockRes
  | fallthrough : List (Nat × Int) → List (Nat × Int) → BlockRes
deriving DecidableEq, Repr

/-- Execute a block's instruction list in order. -/
def execInstrs (prev : Option Nat) :
    List (Nat × Instr) → List (Nat × Int) → List (Nat × Int) → BlockRes
  | [], env, mem => .fallthrough env mem
  | (iid, ins) :: rest, env, mem =>
    match ins with
    | .add l r => execInstrs prev rest (envSet env iid (wrap32 (evalVal env l + evalVal env r))) mem
    | .sub l r => execInstrs prev rest (envSet env iid (wrap32 (evalVal env l - evalVal env r))) mem
    | .mul l r => execInstrs prev rest (envSet env iid (wrap32 (evalVal env l * evalVal env r))) mem
    | .sdiv l r =>
      let d := evalVal env r
      execInstrs prev rest
        (envSet env iid (if d = 0 then 0 else wrap32 (Int.tdiv (evalVal env l) d))) mem
    | .icmp p l r =>
      execInstrs prev rest
        (envSet env iid (if evalPred p (evalVal env l) (evalVal env r) then 1 else 0)) mem
    | .neg v => execInstrs prev rest (envSet env iid (wrap32 (- evalVal env v))) mem
    | .load _ p => execInstrs prev rest (envSet env iid (envGet mem (addrOf p))) mem
    | .store v p => execInstrs prev rest env (envSet mem (addrOf p) (evalVal env v))
    | .alloca _ _ => execInstrs prev rest env mem
    | .phi _ inc =>
      let v := match prev with
        | some pb =>
          match inc.find? (fun q => q.2 = pb) with
          | some q => evalVal env q.1
          | none => 0
        | none => 0
      execInstrs prev rest (envSet env iid v) mem
    | .call _ _ _ => execInstrs prev rest (envSet env iid 0) mem
    | .fpext v _ => execInstrs prev rest (envSet env iid (evalVal env v)) mem
    | .br d => .jump env mem d
    | .condbr c t f => .jump env mem (if evalVal env c ≠ 0 then t else f)
    | .retVal v => .halt env mem (evalVal env v)
    | .retVoid => .halt env mem 0

/-- Machine state between blocks: the block about to run, the block
just left (for phi), environment, memory, and the blocks entered so
far. -/
structure ExecState where
  blk : Nat
  prev : Option Nat
  env : List (Nat × Int)
  mem : List (Nat × Int)
  trace : List Nat
deriving DecidableEq, Repr

inductive RunRes where
  | running : ExecState → RunRes
  | halted : ExecState → Int → RunRes
  | stuck : ExecState → RunRes
deriving DecidableEq, Repr

/-- Execute the current block to its terminator. -/
def stepBlock (st : GenState) (es : ExecState) : RunRes :=
  match lookupBlock st es.blk with
  | none => .stuck es
  | some b =>
    match execInstrs es.prev b.instrs es.env es.mem with
    | .jump env mem d => .running ⟨d, some es.blk, env, mem, es.trace ++ [d]⟩
    | .halt env mem c => .halted ⟨es.blk, es.prev, env, mem, es.trace⟩ c
    | .fallthrough env mem => .stuck ⟨es.blk, es.prev, env, mem, es.trace⟩

/-- Run up to `n` block transitions. -/
def run (st : GenState) : Nat → ExecState → RunRes
  | 0, es => .running es
  | n+1, es =>
    match stepBlock st es with
    | .running es' => run st n es'
    | r => r

/-- Start state at a function's entry block. -/
def startAt (bid : Nat) : ExecState := ⟨bid, none, [], [], [bid]⟩

/-- How many of the visited blocks carry the given name. -/
def visitsNamed (st : GenState) (trace : List Nat) (nm : String) : Nat :=
  trace.countP (fun b =>
    match lookupBlock st b with
    | some blk => blk.name = nm
    | none => false)

/-! ### Frame lemmas: the builder helpers never touch the piped-value
slot. -/

@[simp] theorem updateBlock_pipedValue (st : GenState) (b : Nat) (f : Block → Block) :
    (updateBlock st b f).pipedValue = st.pipedValue := rfl

@[simp] theorem addDiag_pipedValue (st : GenState) (m : String) :
    (addDiag st m).pipedValue = st.pipedValue := rfl

@[simp] theorem positionAtEnd_pipedValue (st : GenState) (b : Nat) :
    (positionAtEnd st b).pipedValue = st.pipedValue := rfl

@[simp] theorem appendBasicBlockInFunc_pipedValue (st : GenState) (f n : String) :
    ((appendBasicBlockInFunc st f n).1).pipedValue = st.pipedValue := rfl

@[simp] theorem createBasicBlock_pipedValue (st : GenState) (n : String) :
    ((createBasicBlock st n).1).pipedValue = st.pipedValue := rfl

@[simp] theorem appendExistingBasicBlock_pipedValue (st : GenState) (f : String) (b : Nat) :
    (appendExistingBasicBlock st f b).pipedValue = st.pipedValue := rfl

@[simp] theorem addFunction_pipedValue (st : GenState) (f : String) (s : Ty) :
    (addFunction st f s).pipedValue = st.pipedValue := rfl

@[simp] theorem buildInstr_pipedValue (st : GenState) (i : Instr) :
    ((buildInstr st i).1).pipedValue = st.pipedValue := by
  unfold buildInstr
  cases h : st.insertPt <;> simp [h, updateBlock]

@[simp] theorem emitSome_pipedValue (st : GenState) (i : Instr) :
    ((emitSome st i).1).pipedValue = st.pipedValue := by
  simp [emitSome]

@[simp] theorem buildAllocaAtEntry_pipedValue (st : GenState) (f : String) (t : Ty) (nm : String) :
    ((buildAllocaAtEntry st f t nm).1).pipedValue = st.pipedValue := by
  unfold buildAllocaAtEntry
  cases h : getEntryBasicBlock { st with nextId := st.nextId + 1 } f <;>
    simp [h, updateBlock]

@[simp] theorem addGlobal_pipedValue (st : GenState) (t : Ty) (nm : String) :
    ((addGlobal st t nm).1).pipedValue = st.pipedValue := rfl

@[simp] theorem buildGlobalStringPtr_pipedValue (st : GenState) (s nm : String) :
    ((buildGlobalStringPtr st s nm).1).pipedValue = st.pipedValue := rfl

@[simp] theorem addCurrentScope_pipedValue (st : GenState) (nm : String) (v : Value)
    (t : Ty) (p : Bool) : (addCurrentScope st nm v t p).pipedValue = st.pipedValue := by
  unfold addCurrentScope
  cases st.localScopes <;> simp

@[simp] theorem get_printf_function_pipedValue (st : GenState) :
    ((get_printf_function st).1).pipedValue = st.pipedValue := by
  unfold get_printf_function
  split <;> simp

@[simp] theorem print_with_arg_pipedValue (st : GenState) (v : Value) :
    ((print_with_arg st v).1).pipedValue = st.pipedValue := by
  unfold print_with_arg
  split <;> simp

@[simp] theorem bindParams_pipedValue (st : GenState) (f : String) (ps : List String) (i : Nat) :
    (bindParams st f ps i).pipedValue = st.pipedValue := by
  induction ps generalizing st i with
  | nil => rfl
  | cons p rest ih => simp [bindParams, ih]

@[simp] theorem func_def_setup_pipedValue (st : GenState) (nm : String) (ps : List String) :
    ((func_def_setup st nm ps).1).pipedValue = st.pipedValue := by
  simp [func_def_setup]

@[simp] theorem brIfUnterminated_pipedValue (st : GenState) (d : Nat) :
    (brIfUnterminated st d).pipedValue = st.pipedValue := by
  unfold brIfUnterminated
  split <;> [skip; rfl]
  split <;> simp

@[simp] theorem defaultRetIfUnterminated_pipedValue (st : GenState) (t : Ty) :
    (defaultRetIfUnterminated st t).pipedValue = st.pipedValue := by
  unfold defaultRetIfUnterminated
  split <;> [skip; rfl]
  split <;> [skip; rfl]
  split <;> simp

@[simp] theorem codegen_identifier_pipedValue (st : GenState) (nm : String) :
    ((codegen_identifier st nm).1).pipedValue = st.pipedValue := by
  unfold codegen_identifier
  split
  · rfl
  · split
    · split <;> simp
    · simp

/-- The piped-value slot is preserved by every lowering routine: the
only two functions that write it (codegen_pipeline and
codegen_for_loop) restore the saved value on all paths. -/
theorem piped_preserved_all : ∀ fuel : Nat,
    (∀ st n, ((codegen_expr fuel st n).1).pipedValue = st.pipedValue) ∧
    (∀ st op l r, ((codegen_binop fuel st op l r).1).pipedValue = st.pipedValue) ∧
    (∀ st op e, ((codegen_unaryop fuel st op e).1).pipedValue = st.pipedValue) ∧
    (∀ st nm e, ((codegen_assignment fuel st nm e).1).pipedValue = st.pipedValue) ∧
    (∀ st nm ps b, ((codegen_func_def fuel st nm ps b).1).pipedValue = st.pipedValue) ∧
    (∀ st nm args piped, ((codegen_func_call fuel st nm args piped).1).pipedValue = st.pipedValue) ∧
    (∀ st args, ((codegen_arg_list fuel st args).1).pipedValue = st.pipedValue) ∧
    (∀ st l r, ((codegen_pipeline fuel st l r).1).pipedValue = st.pipedValue) ∧
    (∀ st c t e, ((codegen_if_else fuel st c t e).1).pipedValue = st.pipedValue) ∧
    (∀ st s e, ((codegen_range fuel st s e).1).pipedValue = st.pipedValue) ∧
    (∀ st r v b, ((codegen_for_loop fuel st r v b).1).pipedValue = st.pipedValue) ∧
    (∀ st v, ((codegen_return fuel st v).1).pipedValue = st.pipedValue) ∧
    (∀ st e, ((codegen_print_call fuel st e).1).pipedValue = st.pipedValue) ∧
    (∀ st l, (codegen_statement_list_payload fuel st l).pipedValue = st.pipedValue) ∧
    (∀ st b, (lower_body_list fuel st b).pipedValue = st.pipedValue) := by
  intro fuel
  induction fuel with
  | zero =>
    refine ⟨?_, ?_, ?_, ?_, ?_, ?_, ?_, ?_, ?_, ?_, ?_, ?_, ?_, ?_, ?_⟩ <;>
      intros <;>
      simp [codegen_expr, codegen_binop, codegen_unaryop, codegen_assignment,
            codegen_func_def, codegen_func_call, codegen_arg_list, codegen_pipeline,
            codegen_if_else, codegen_range, codegen_for_loop, codegen_return,
            codegen_print_call, codegen_statement_list_payload, lower_body_list]
  | succ fuel ih =>
    obtain ⟨ihExpr, ihBinop, ihUnary, ihAssign, ihFdef, ihFcall, ihArgs, ihPipe,
            ihIf, ihRange, ihFor, ihRet, ihPrint, ihSL, ihLB⟩ := ih
    have hExpr : ∀ st n, ((codegen_expr (fuel + 1) st n).1).pipedValue = st.pipedValue := by
      intro st n
      cases n <;>
        simp [codegen_expr, ihBinop, ihUnary, ihAssign, ihFcall, ihPipe, ihIf,
              ihRange, ihPrint]
    have hBinop : ∀ st op l r,
        ((codegen_binop (fuel + 1) st op l r).1).pipedValue = st.pipedValue := by
      intro st op l r
      cases op <;>
        (simp only [codegen_binop]
         split
         · simp [ihExpr]
         · (try split) <;> (try split) <;> simp [ihExpr])
    have hArgs : ∀ st args,
        ((codegen_arg_list (fuel + 1) st args).1).pipedValue = st.pipedValue := by
      intro st args
      cases args with
      | nil => simp [codegen_arg_list]
      | cons a as =>
        simp only [codegen_arg_list]
        split
        · simp [ihExpr]
        · split <;> simp [ihExpr, ihArgs]
    have hSL : ∀ st l,
        (codegen_statement_list_payload (fuel + 1) st l).pipedValue = st.pipedValue := by
      intro st l
      cases l with
      | nil => simp [codegen_statement_list_payload]
      | cons s rest =>
        simp only [codegen_statement_list_payload]
        split
        · rfl
        · split <;> simp [ihFdef, ihRet, ihFor, ihSL, ihExpr]
    have hLB : ∀ st b, (lower_body_list (fuel + 1) st b).pipedValue = st.pipedValue := by
      intro st b
      simp only [lower_body_list]
      split <;> simp [ihSL]
    refine ⟨hExpr, hBinop, ?_, ?_, ?_, ?_, hArgs, ?_, ?_, ?_, ?_, ?_, ?_, hSL, hLB⟩
    · -- unaryop
      intro st op e
      simp only [codegen_unaryop]
      split
      · simp [ihExpr]
      · split <;> simp [ihExpr]
    · -- assignment
      intro st nm e
      simp only [codegen_assignment]
      split
      · simp [ihExpr]
      · split
        · split <;> simp [ihExpr]
        · split
          · simp [ihExpr]
          · split <;> simp [ihExpr]
    · -- func_def
      intro st nm ps b
      simp only [codegen_func_def]
      simp [ihLB]
    · -- func_call
      intro st nm args piped
      simp only [codegen_func_call]
      split <;> (try split) <;> (try split) <;> (try split) <;> (try split) <;>
        (try simp [ihArgs]) <;> (try split) <;> simp [ihArgs]
    · -- pipeline
      intro st l r
      simp only [codegen_pipeline]
      simp [ihExpr]
    · -- if_else
      intro st c t e
      simp only [codegen_if_else]
      split <;> (try split) <;> (try split) <;> (try split) <;>
        (try simp [ihExpr, ihLB]) <;> (try split) <;> simp [ihExpr, ihLB]
    · -- range
      intro st s e
      simp only [codegen_range]
      split <;> simp [ihExpr]
    · -- for_loop
      intro st r v b
      simp only [codegen_for_loop]
      split <;> (try split) <;> (try split) <;> (try split) <;>
        (try simp [ihExpr, ihLB]) <;> (try split) <;> simp [ihExpr, ihLB]
    · -- return
      intro st v
      simp only [codegen_return]
      split
      · rfl
      · split
        · split <;> simp [ihExpr]
        · simp
    · -- print_call
      intro st e
      simp only [codegen_print_call]
      split
      · split <;> simp [ihExpr]
      · split <;> simp

/-! ### Claim C4 -/

/-- C4: for every pipeline node, after its lowering returns — on every
outcome, including the invalid-right-hand-shape error path — the
generator's piped-value slot equals the value it held before the
pipeline's lowering began.  (codegen_pipeline restores the saved piped
value after the dispatch on every path; the save is taken after the
left lowering, which itself preserves the slot by the mutual
invariant.) -/
theorem pipeline_restores_piped_value (fuel : Nat) (st : GenState) (lhs rhs : Ast) :
    ((codegen_pipeline fuel st lhs rhs).1).pipedValue = st.pipedValue :=
  (piped_preserved_all fuel).2.2.2.2.2.2.2.1 st lhs rhs

/-! ### Claim C7 -/

/-- C7: during the lowering of any statement list, once the builder's
current block already has a terminator, every subsequent statement of
that list is skipped: the generator state (module, blocks, scopes,
diagnostics) is returned entirely unchanged, so nothing is emitted into
the terminated block and no fresh block is created. -/
theorem statement_list_skips_after_terminator (fuel : Nat) (st : GenState)
    (stmts : List Ast) (bb : Nat) (h1 : st.insertPt = some bb)
    (h2 : (blockTerminator st bb).isSome) :
    codegen_statement_list_payload fuel st stmts = st := by
  cases fuel with
  | zero => rfl
  | succ fuel =>
    cases stmts with
    | nil => rfl
    | cons s rest => simp [codegen_statement_list_payload, h1, h2]

/-- A state whose current block is already terminated by a return. -/
def haltedState : GenState :=
  ⟨[(0, ⟨"entry", [(1, Instr.retVal (Value.constInt Ty.i32 0))]⟩)],
   [⟨"main", Ty.fn [] Ty.i32 false, [0]⟩], [], 2, some 0, some "main",
   none, none, none, [], [[]], []⟩

/-- Witness for C7 at a concrete terminated state and statement list. -/
theorem statement_list_skips_after_terminator_witness :
    codegen_statement_list_payload 9 haltedState
      [Ast.printcall (some (Ast.number 1)), Ast.assign "x" (Ast.number 2)]
      = haltedState :=
  statement_list_skips_after_terminator 9 haltedState
    [Ast.printcall (some (Ast.number 1)), Ast.assign "x" (Ast.number 2)] 0 rfl (by decide)

/-! ### Lookup and builder toolkit lemmas -/

@[simp] theorem buildInstr_fst_insertPt (st : GenState) (i : Instr) :
    ((buildInstr st i).1).insertPt = st.insertPt := by
  unfold buildInstr
  cases h : st.insertPt <;> simp [h, updateBlock]

@[simp] theorem buildInstr_fst_nextId (st : GenState) (i : Instr) :
    ((buildInstr st i).1).nextId = st.nextId + 1 := by
  unfold buildInstr
  cases h : st.insertPt <;> simp [h, updateBlock]

@[simp] theorem buildInstr_snd (st : GenState) (i : Instr) :
    (buildInstr st i).2 = Value.inst st.nextId i.resultTy i.isAllocaI := by
  unfold buildInstr
  cases h : st.insertPt <;> simp [h]

@[simp] theorem appendBasicBlockInFunc_snd (st : GenState) (f n : String) :
    (appendBasicBlockInFunc st f n).2 = st.nextId := rfl

@[simp] theorem appendBasicBlockInFunc_fst_nextId (st : GenState) (f n : String) :
    ((appendBasicBlockInFunc st f n).1).nextId = st.nextId + 1 := rfl

@[simp] theorem appendBasicBlockInFunc_fst_insertPt (st : GenState) (f n : String) :
    ((appendBasicBlockInFunc st f n).1).insertPt = st.insertPt := rfl

@[simp] theorem createBasicBlock_snd (st : GenState) (n : String) :
    (createBasicBlock st n).2 = st.nextId := rfl

@[simp] theorem createBasicBlock_fst_nextId (st : GenState) (n : String) :
    ((createBasicBlock st n).1).nextId = st.nextId + 1 := rfl

@[simp] theorem createBasicBlock_fst_insertPt (st : GenState) (n : String) :
    ((createBasicBlock st n).1).insertPt = st.insertPt := rfl

@[simp] theorem positionAtEnd_insertPt (st : GenState) (b : Nat) :
    (positionAtEnd st b).insertPt = some b := rfl

@[simp] theorem positionAtEnd_nextId (st : GenState) (b : Nat) :
    (positionAtEnd st b).nextId = st.nextId := rfl

@[simp] theorem positionAtEnd_blocks (st : GenState) (b : Nat) :
    (positionAtEnd st b).blocks = st.blocks := rfl

@[simp] theorem appendExistingBasicBlock_blocks (st : GenState) (f : String) (b : Nat) :
    (appendExistingBasicBlock st f b).blocks = st.blocks := rfl

/-- Association-list update under lookup. -/
theorem assocBlock_map_update (l : List (Nat × Block)) (bid b : Nat) (f : Block → Block) :
    assocBlock (l.map (fun p => if p.1 = bid then (p.1, f p.2) else p)) b
      = if b = bid then (assocBlock l b).map f else assocBlock l b := by
  induction l with
  | nil => by_cases h : b = bid <;> simp [assocBlock, h]
  | cons q rest ih =>
    by_cases hqbid : q.1 = bid <;> by_cases hqb : q.1 = b
    · have hb : b = bid := by omega
      subst hb
      simp [assocBlock, hqbid, hqb]
    · have hb1 : ¬ b = bid := by omega
      have hb2 : ¬ bid = b := by omega
      simp [assocBlock, hqbid, hqb, hb1, hb2, ih]
    · have hb1 : ¬ b = bid := by omega
      simp [assocBlock, hqbid, hqb, hb1]
    · by_cases hb : b = bid
      · subst hb
        simp [assocBlock, hqbid, hqb, ih]
      · simp [assocBlock, hqbid, hqb, hb, ih]

theorem lookupBlock_updateBlock (st : GenState) (bid : Nat) (f : Block → Block) (b : Nat) :
    lookupBlock (updateBlock st bid f) b =
      if b = bid then (lookupBlock st b).map f else lookupBlock st b := by
  unfold lookupBlock updateBlock
  exact assocBlock_map_update st.blocks bid b f

theorem lookupBlock_buildInstr (st : GenState) (i : Instr) (bb b : Nat)
    (h : st.insertPt = some bb) :
    lookupBlock (buildInstr st i).1 b =
      if b = bb then (lookupBlock st b).map
        (fun blk => ⟨blk.name, blk.instrs ++ [(st.nextId, i)]⟩)
      else lookupBlock st b := by
  unfold buildInstr
  simp only [h]
  rw [lookupBlock_updateBlock]
  rfl

theorem lookupBlock_buildInstr_none (st : GenState) (i : Instr) (b : Nat)
    (h : st.insertPt = none) :
    lookupBlock (buildInstr st i).1 b = lookupBlock st b := by
  unfold buildInstr
  simp only [h]
  rfl

theorem assocBlock_append_entry (l : List (Nat × Block)) (e : Nat × Block) (b : Nat) :
    assocBlock (l ++ [e]) b =
      match assocBlock l b with
      | some blk => some blk
      | none => if e.1 = b then some e.2 else none := by
  induction l with
  | nil => simp [assocBlock]
  | cons q rest ih =>
    by_cases hq : q.1 = b <;> simp [assocBlock, hq, ih]

theorem lookupBlock_appendBasicBlockInFunc (st : GenState) (f n : String) (b : Nat) :
    lookupBlock (appendBasicBlockInFunc st f n).1 b =
      match lookupBlock st b with
      | some blk => some blk
      | none => if st.nextId = b then some ⟨n, []⟩ else none := by
  unfold appendBasicBlockInFunc lookupBlock
  exact assocBlock_append_entry st.blocks (st.nextId, ⟨n, []⟩) b

theorem lookupBlock_createBasicBlock (st : GenState) (n : String) (b : Nat) :
    lookupBlock (createBasicBlock st n).1 b =
      match lookupBlock st b with
      | some blk => some blk
      | none => if st.nextId = b then some ⟨n, []⟩ else none := by
  unfold createBasicBlock lookupBlock
  exact assocBlock_append_entry st.blocks (st.nextId, ⟨n, []⟩) b

/-- Every block id in the pool is below the id counter
(an invariant of every reachable generator state). -/
def blocksBelowB (st : GenState) : Bool :=
  st.blocks.all (fun q => q.1 < st.nextId)

theorem assocBlock_none_of_all_lt (l : List (Nat × Block)) (n m : Nat)
    (hall : ∀ q ∈ l, q.1 < m) (hn : m ≤ n) : assocBlock l n = none := by
  induction l with
  | nil => rfl
  | cons q rest ih =>
    have hq := hall q (by simp)
    have hne : ¬ q.1 = n := by omega
    simp only [assocBlock, hne, if_neg]
    exact ih (fun x hx => hall x (List.mem_cons_of_mem q hx))

theorem lookupBlock_none_of_ge (st : GenState) (n : Nat)
    (hfresh : blocksBelowB st = true) (hn : st.nextId ≤ n) :
    lookupBlock st n = none := by
  have hall := List.all_eq_true.mp hfresh
  exact assocBlock_none_of_all_lt st.blocks n st.nextId
    (fun q hq => by have := hall q hq; simpa using this) hn

theorem lookupBlock_lt_of_some (st : GenState) (b : Nat) (blk : Block)
    (hfresh : blocksBelowB st = true) (h : lookupBlock st b = some blk) :
    b < st.nextId := by
  by_contra hge
  rw [lookupBlock_none_of_ge st b hfresh (by omega)] at h
  exact Option.noConfusion h

theorem blockTerminator_of_lookup (st : GenState) (bb : Nat) (blk : Block)
    (idT : Nat) (i : Instr) (h : lookupBlock st bb = some blk)
    (hlast : blk.instrs.getLast? = some (idT, i)) (hterm : i.isTerminator = true) :
    blockTerminator st bb = some i := by
  unfold blockTerminator
  rw [h]
  simp [hlast, hterm]

theorem lookupBlock_appendBBF_found (st : GenState) (f n : String) (b : Nat) (blk : Block)
    (h : lookupBlock st b = some blk) :
    lookupBlock (appendBasicBlockInFunc st f n).1 b = some blk := by
  rw [lookupBlock_appendBasicBlockInFunc, h]

theorem lookupBlock_appendBBF_new (st : GenState) (f n : String)
    (h : lookupBlock st st.nextId = none) :
    lookupBlock (appendBasicBlockInFunc st f n).1 st.nextId = some ⟨n, []⟩ := by
  rw [lookupBlock_appendBasicBlockInFunc, h]
  simp

theorem lookupBlock_createBB_found (st : GenState) (n : String) (b : Nat) (blk : Block)
    (h : lookupBlock st b = some blk) :
    lookupBlock (createBasicBlock st n).1 b = some blk := by
  rw [lookupBlock_createBasicBlock, h]

theorem lookupBlock_createBB_new (st : GenState) (n : String)
    (h : lookupBlock st st.nextId = none) :
    lookupBlock (createBasicBlock st n).1 st.nextId = some ⟨n, []⟩ := by
  rw [lookupBlock_createBasicBlock, h]
  simp

theorem lookupBlock_buildInstr_same (st : GenState) (i : Instr) (bb : Nat) (blk : Block)
    (h : st.insertPt = some bb) (hl : lookupBlock st bb = some blk) :
    lookupBlock (buildInstr st i).1 bb
      = some ⟨blk.name, blk.instrs ++ [(st.nextId, i)]⟩ := by
  rw [lookupBlock_buildInstr st i bb bb h]
  simp [hl]

theorem lookupBlock_buildInstr_ne (st : GenState) (i : Instr) (bb b : Nat)
    (h : st.insertPt = some bb) (hne : b ≠ bb) :
    lookupBlock (buildInstr st i).1 b = lookupBlock st b := by
  rw [lookupBlock_buildInstr st i bb b h]
  simp [hne]

theorem getLast?_append_singleton {α : Type} (l : List α) (a : α) :
    (l ++ [a]).getLast? = some a := by
  induction l with
  | nil => rfl
  | cons x xs ih =>
    cases xs with
    | nil => rfl
    | cons y ys => simpa [List.getLast?] using ih

/-! ### Claim C2 -/

/-- C2: a call's actual argument count is the explicit count plus one
when a piped value is threaded in; on a mismatch with the callee's
formal parameter count only the diagnostic is recorded — the returned
state is `addDiag st …` itself, so no instruction (in particular no
call) is emitted and no argument is even lowered.  When the counts
match and a piped value is present, the emitted call's argument list is
the piped value followed by the lowered explicit arguments. -/
theorem func_call_checks_arity_and_pipes_first (fuel : Nat) (st : GenState) (nm : String)
    (args : List Ast) (piped : Option Value) (sym : Sym) (ps : List Ty) (rt : Ty) (vr : Bool)
    (hfind : find_symbol_global st nm = some sym)
    (hsig : sym.ty = Ty.fn ps rt vr) :
    (ps.length ≠ args.length + (if piped.isSome then 1 else 0) →
      codegen_func_call (fuel + 1) st nm args piped
        = (addDiag st "Incorrect number of arguments for function", none)) ∧
    (∀ pv vs stA,
      piped = some pv →
      ps.length = args.length + 1 →
      codegen_arg_list fuel st args = (stA, some vs) →
      codegen_func_call (fuel + 1) st nm args piped
        = emitSome stA (Instr.call sym.ty sym.value (pv :: vs))) := by
  constructor
  · intro hne
    simp [codegen_func_call, hfind, hsig, hne]
  · intro pv vs stA hp hlen hargs
    subst hp
    simp [codegen_func_call, hfind, hsig, hlen, hargs]

/-- The signature of a two-parameter integer function. -/
def sigF2 : Ty := Ty.fn [Ty.i32, Ty.i32] Ty.i32 false

/-- A state whose global scope holds a two-parameter function `f` and
whose builder sits in an empty entry block of `main`. -/
def stCall : GenState :=
  ⟨[(0, ⟨"entry", []⟩)], [⟨"main", Ty.fn [] Ty.i32 false, [0]⟩, ⟨"f", sigF2, []⟩],
   [], 2, some 0, some "main", none, none, none,
   [⟨"f", Value.funcVal "f" sigF2, sigF2, false⟩], [[]], []⟩

/-- Witness for C2: with a piped value, `f(7)` against two formals is
accepted with the piped value first, and `f()` against two formals is
rejected with no emission. -/
theorem func_call_checks_arity_witness :
    (codegen_func_call 9 stCall "f" [] (some (Value.constInt Ty.i32 5))
      = (addDiag stCall "Incorrect number of arguments for function", none)) ∧
    (codegen_func_call 9 stCall "f" [Ast.number 7] (some (Value.constInt Ty.i32 5))
      = emitSome stCall (Instr.call sigF2 (Value.funcVal "f" sigF2)
          [Value.constInt Ty.i32 5, Value.constInt Ty.i32 7])) := by
  constructor
  · exact (func_call_checks_arity_and_pipes_first 8 stCall "f" []
      (some (Value.constInt Ty.i32 5)) _ [Ty.i32, Ty.i32] Ty.i32 false rfl rfl).1 (by decide)
  · exact (func_call_checks_arity_and_pipes_first 8 stCall "f" [Ast.number 7]
      (some (Value.constInt Ty.i32 5)) _ [Ty.i32, Ty.i32] Ty.i32 false rfl rfl).2
      (Value.constInt Ty.i32 5) [Value.constInt Ty.i32 7] stCall rfl (by decide) rfl

/-! ### Claim C1 -/

/-- C1: for a binary `and`, the right operand is lowered only inside
the freshly appended eval-right block (id `st1.nextId`), whose only
entry is the true edge of a conditional branch on `L ≠ 0` emitted into
the block where the left operand was evaluated (false edge: the merge
block `st1.nextId + 1`).  The merge block receives a two-input 1-bit
phi whose incoming values are false from the left-evaluated block and
the right operand converted to 1-bit (compared against zero) from
block `bA` — the builder's current block after lowering the right
operand (`pR.1.insertPt`), not the eval-right entry block. -/
theorem and_lowering_shape (fuel : Nat) (st st1 : GenState) (l r : Ast) (L : Value)
    (bbL : Nat) (fn : String) (blkL : Block)
    (stB stR0 : GenState)
    (pR : GenState × Option Value) (bA : Nat) (blkA blkM : Block)
    (h1 : codegen_expr fuel st l = (st1, some L))
    (h2 : st1.insertPt = some bbL)
    (h3 : blockParent st1 bbL = some fn)
    (h4 : lookupBlock st1 bbL = some blkL)
    (hfresh : blocksBelowB st1 = true)
    (hB : stB = (appendBasicBlockInFunc (appendBasicBlockInFunc st1 fn "and.evalR").1
                 fn "and.merge").1)
    (hR0 : stR0 = positionAtEnd
        (buildInstr (buildInstr stB (Instr.icmp Pred.ne L (constNull L.ty))).1
          (Instr.condbr (Value.inst (st1.nextId + 2) Ty.i1 false)
            st1.nextId (st1.nextId + 1))).1 st1.nextId)
    (hpR : pR = codegen_expr fuel stR0 r)
    (hbA : pR.1.insertPt = some bA)
    (hbAne : bA ≠ st1.nextId + 1)
    (hA : lookupBlock pR.1 bA = some blkA)
    (hM : lookupBlock pR.1 (st1.nextId + 1) = some blkM) :
    lookupBlock st1 st1.nextId = none ∧
    lookupBlock st1 (st1.nextId + 1) = none ∧
    stR0.insertPt = some st1.nextId ∧
    lookupBlock stR0 st1.nextId = some ⟨"and.evalR", []⟩ ∧
    lookupBlock stR0 bbL = some ⟨blkL.name, blkL.instrs ++
      [(st1.nextId + 2, Instr.icmp Pred.ne L (constNull L.ty)),
       (st1.nextId + 3, Instr.condbr (Value.inst (st1.nextId + 2) Ty.i1 false)
          st1.nextId (st1.nextId + 1))]⟩ ∧
    blockTerminator stR0 bbL = some (Instr.condbr (Value.inst (st1.nextId + 2) Ty.i1 false)
      st1.nextId (st1.nextId + 1)) ∧
    (codegen_binop (fuel + 1) st Op.and l r).2
      = some (Value.inst (pR.1.nextId + 2) Ty.i1 false) ∧
    ((codegen_binop (fuel + 1) st Op.and l r).1).insertPt = some (st1.nextId + 1) ∧
    lookupBlock ((codegen_binop (fuel + 1) st Op.and l r).1) bA
      = some ⟨blkA.name, blkA.instrs ++
          [(pR.1.nextId, Instr.icmp Pred.ne (pR.2.getD (Value.constInt Ty.i1 0))
             (constNull (pR.2.getD (Value.constInt Ty.i1 0)).ty)),
           (pR.1.nextId + 1, Instr.br (st1.nextId + 1))]⟩ ∧
    lookupBlock ((codegen_binop (fuel + 1) st Op.and l r).1) (st1.nextId + 1)
      = some ⟨blkM.name, blkM.instrs ++
          [(pR.1.nextId + 2, Instr.phi Ty.i1
             [(Value.inst pR.1.nextId Ty.i1 false, bA),
              (Value.constInt Ty.i1 0, bbL)])]⟩ := by
  have hnew1 : lookupBlock st1 st1.nextId = none :=
    lookupBlock_none_of_ge st1 st1.nextId hfresh (Nat.le_refl _)
  have hnew2 : lookupBlock st1 (st1.nextId + 1) = none :=
    lookupBlock_none_of_ge st1 _ hfresh (by omega)
  have hblt : bbL < st1.nextId := lookupBlock_lt_of_some st1 bbL blkL hfresh h4
  subst hB
  have a1 : lookupBlock (appendBasicBlockInFunc st1 fn "and.evalR").1 bbL = some blkL :=
    lookupBlock_appendBBF_found _ _ _ _ _ h4
  have a2 : lookupBlock (appendBasicBlockInFunc st1 fn "and.evalR").1 st1.nextId
      = some ⟨"and.evalR", []⟩ := lookupBlock_appendBBF_new _ _ _ hnew1
  have a3 : lookupBlock (appendBasicBlockInFunc st1 fn "and.evalR").1 (st1.nextId + 1)
      = none := by
    rw [lookupBlock_appendBasicBlockInFunc, hnew2]
    simp
  have b1 : lookupBlock (appendBasicBlockInFunc (appendBasicBlockInFunc st1 fn
      "and.evalR").1 fn "and.merge").1 bbL = some blkL :=
    lookupBlock_appendBBF_found _ _ _ _ _ a1
  have b2 : lookupBlock (appendBasicBlockInFunc (appendBasicBlockInFunc st1 fn
      "and.evalR").1 fn "and.merge").1 st1.nextId = some ⟨"and.evalR", []⟩ :=
    lookupBlock_appendBBF_found _ _ _ _ _ a2
  have b3 : lookupBlock (appendBasicBlockInFunc (appendBasicBlockInFunc st1 fn
      "and.evalR").1 fn "and.merge").1 (st1.nextId + 1) = some ⟨"and.merge", []⟩ := by
    rw [lookupBlock_appendBasicBlockInFunc, a3]
    simp
  have hinsB : (appendBasicBlockInFunc (appendBasicBlockInFunc st1 fn "and.evalR").1
      fn "and.merge").1.insertPt = some bbL := by simp [h2]
  have c1 : lookupBlock (buildInstr (appendBasicBlockInFunc (appendBasicBlockInFunc st1
      fn "and.evalR").1 fn "and.merge").1 (Instr.icmp Pred.ne L (constNull L.ty))).1 bbL
      = some ⟨blkL.name, blkL.instrs ++ [(st1.nextId + 2,
          Instr.icmp Pred.ne L (constNull L.ty))]⟩ := by
    have := lookupBlock_buildInstr_same _ (Instr.icmp Pred.ne L (constNull L.ty)) bbL blkL
      hinsB b1
    simpa [Nat.add_assoc] using this
  have c2 : lookupBlock (buildInstr (appendBasicBlockInFunc (appendBasicBlockInFunc st1
      fn "and.evalR").1 fn "and.merge").1 (Instr.icmp Pred.ne L (constNull L.ty))).1
      st1.nextId = some ⟨"and.evalR", []⟩ := by
    rw [lookupBlock_buildInstr_ne _ _ bbL _ hinsB (by omega)]
    exact b2
  have c3 : lookupBlock (buildInstr (appendBasicBlockInFunc (appendBasicBlockInFunc st1
      fn "and.evalR").1 fn "and.merge").1 (Instr.icmp Pred.ne L (constNull L.ty))).1
      (st1.nextId + 1) = some ⟨"and.merge", []⟩ := by
    rw [lookupBlock_buildInstr_ne _ _ bbL _ hinsB (by omega)]
    exact b3
  have hres : codegen_binop (fuel + 1) st Op.and l r =
      ((buildInstr (positionAtEnd (buildInstr (buildInstr pR.1
          (Instr.icmp Pred.ne (pR.2.getD (Value.constInt Ty.i1 0))
            (constNull (pR.2.getD (Value.constInt Ty.i1 0)).ty))).1
          (Instr.br (st1.nextId + 1))).1 (st1.nextId + 1))
        (Instr.phi Ty.i1 [(Value.inst pR.1.nextId Ty.i1 false, bA),
          (Value.constInt Ty.i1 0, bbL)])).1,
       some (Value.inst (pR.1.nextId + 2) Ty.i1 false)) := by
    simp only [codegen_binop, h1]
    simp [h2, h3, Nat.add_assoc, Instr.resultTy, Instr.isAllocaI, ← hR0, ← hpR, hbA]
  refine ⟨hnew1, hnew2, ?_, ?_, ?_, ?_, ?_, ?_, ?_, ?_⟩
  · rw [hR0]; rfl
  · rw [hR0]
    show lookupBlock (buildInstr _ _).1 st1.nextId = some ⟨"and.evalR", []⟩
    rw [lookupBlock_buildInstr_ne _ _ bbL _ (by simp [h2]) (by omega)]
    exact c2
  · rw [hR0]
    show lookupBlock (buildInstr _ _).1 bbL = _
    have := lookupBlock_buildInstr_same _
      (Instr.condbr (Value.inst (st1.nextId + 2) Ty.i1 false) st1.nextId (st1.nextId + 1))
      bbL _ (by simp [h2]) c1
    simpa [Nat.add_assoc] using this
  · -- the left block's terminator is the conditional branch
    rw [hR0]
    refine blockTerminator_of_lookup _ bbL
      ⟨blkL.name, blkL.instrs ++
        [(st1.nextId + 2, Instr.icmp Pred.ne L (constNull L.ty)),
         (st1.nextId + 3, Instr.condbr (Value.inst (st1.nextId + 2) Ty.i1 false)
            st1.nextId (st1.nextId + 1))]⟩
      (st1.nextId + 3) _ ?_ ?_ rfl
    · show lookupBlock (buildInstr _ _).1 bbL = _
      have := lookupBlock_buildInstr_same _
        (Instr.condbr (Value.inst (st1.nextId + 2) Ty.i1 false) st1.nextId (st1.nextId + 1))
        bbL _ (by simp [h2]) c1
      simpa [Nat.add_assoc] using this
    · show (blkL.instrs ++ _).getLast? = _
      rw [show blkL.instrs ++
          [(st1.nextId + 2, Instr.icmp Pred.ne L (constNull L.ty)),
           (st1.nextId + 3, Instr.condbr (Value.inst (st1.nextId + 2) Ty.i1 false)
              st1.nextId (st1.nextId + 1))]
        = (blkL.instrs ++ [(st1.nextId + 2, Instr.icmp Pred.ne L (constNull L.ty))]) ++
          [(st1.nextId + 3, Instr.condbr (Value.inst (st1.nextId + 2) Ty.i1 false)
              st1.nextId (st1.nextId + 1))] by simp]
      exact getLast?_append_singleton _ _
  · -- the binop's value is the phi
    simp only [codegen_binop, h1]
    simp [h2, h3, Nat.add_assoc, Instr.resultTy, Instr.isAllocaI, ← hR0, ← hpR]
  · -- the builder ends at the merge block
    simp only [codegen_binop, h1]
    simp [h2, h3, Nat.add_assoc, Instr.resultTy, Instr.isAllocaI, ← hR0, ← hpR]
  · -- the 1-bit conversion of the right value and the branch to merge
    -- are emitted into block bA, current after lowering the right operand
    rw [hres]
    rw [lookupBlock_buildInstr_ne _ _ (st1.nextId + 1) bA rfl hbAne]
    show lookupBlock (buildInstr (buildInstr pR.1 _).1 _).1 bA = _
    have e1 : lookupBlock (buildInstr pR.1
        (Instr.icmp Pred.ne (pR.2.getD (Value.constInt Ty.i1 0))
          (constNull (pR.2.getD (Value.constInt Ty.i1 0)).ty))).1 bA
        = some ⟨blkA.name, blkA.instrs ++ [(pR.1.nextId,
            Instr.icmp Pred.ne (pR.2.getD (Value.constInt Ty.i1 0))
              (constNull (pR.2.getD (Value.constInt Ty.i1 0)).ty))]⟩ :=
      lookupBlock_buildInstr_same pR.1 _ bA blkA hbA hA
    have e2 := lookupBlock_buildInstr_same _ (Instr.br (st1.nextId + 1)) bA _
      (by simp [hbA]) e1
    simpa [Nat.add_assoc] using e2
  · -- the phi lands at the end of the merge block
    rw [hres]
    have f1 : lookupBlock (buildInstr pR.1
        (Instr.icmp Pred.ne (pR.2.getD (Value.constInt Ty.i1 0))
          (constNull (pR.2.getD (Value.constInt Ty.i1 0)).ty))).1 (st1.nextId + 1)
        = some blkM := by
      rw [lookupBlock_buildInstr_ne pR.1 _ bA _ hbA hbAne.symm]
      exact hM
    have f2 : lookupBlock (buildInstr (buildInstr pR.1
        (Instr.icmp Pred.ne (pR.2.getD (Value.constInt Ty.i1 0))
          (constNull (pR.2.getD (Value.constInt Ty.i1 0)).ty))).1
        (Instr.br (st1.nextId + 1))).1 (st1.nextId + 1) = some blkM := by
      rw [lookupBlock_buildInstr_ne _ _ bA _ (by simp [hbA]) hbAne.symm]
      exact f1
    have f3 := lookupBlock_buildInstr_same
      (positionAtEnd (buildInstr (buildInstr pR.1
        (Instr.icmp Pred.ne (pR.2.getD (Value.constInt Ty.i1 0))
          (constNull (pR.2.getD (Value.constInt Ty.i1 0)).ty))).1
        (Instr.br (st1.nextId + 1))).1 (st1.nextId + 1))
      (Instr.phi Ty.i1
        [(Value.inst pR.1.nextId Ty.i1 false, bA), (Value.constInt Ty.i1 0, bbL)])
      (st1.nextId + 1) blkM rfl f2
    simpa [Nat.add_assoc] using f3

/-- A concrete state for the C1 witness: `main` with an empty entry
block, builder positioned there. -/
def stAnd : GenState :=
  ⟨[(0, ⟨"entry", []⟩)], [⟨"main", Ty.fn [] Ty.i32 false, [0]⟩], [], 1, some 0,
   some "main", none, none, none, [], [[]], []⟩

def andL : Ast := Ast.number 1

/-- A nested `and` as right operand, so that lowering the right
operand itself introduces blocks: the builder's final block (the inner
merge, id 6) differs from the eval-right entry block (id 1). -/
def andR : Ast := Ast.binop Op.and (Ast.number 2) (Ast.number 3)

def stBW : GenState :=
  (appendBasicBlockInFunc (appendBasicBlockInFunc stAnd "main" "and.evalR").1
    "main" "and.merge").1

def stR0W : GenState :=
  positionAtEnd (buildInstr (buildInstr stBW
    (Instr.icmp Pred.ne (Value.constInt Ty.i32 1)
      (constNull (Value.constInt Ty.i32 1).ty))).1
    (Instr.condbr (Value.inst 3 Ty.i1 false) 1 2)).1 1

def pRW : GenState × Option Value := codegen_expr 10 stR0W andR

/-! ### Claim C5 -/

/-- The values an instruction references. -/
def Instr.operands : Instr → List Value
  | .add l r => [l, r]
  | .sub l r => [l, r]
  | .mul l r => [l, r]
  | .sdiv l r => [l, r]
  | .icmp _ l r => [l, r]
  | .neg v => [v]
  | .load _ p => [p]
  | .store v p => [v, p]
  | .alloca _ _ => []
  | .phi _ inc => inc.map Prod.fst
  | .call _ c args => c :: args
  | .fpext v _ => [v]
  | .br _ => []
  | .condbr c _ _ => [c]
  | .retVal v => [v]
  | .retVoid => []

def Value.instIdLt (v : Value) (n : Nat) : Bool :=
  match v with
  | .inst i _ _ => i < n
  | _ => true

/-- All instruction ids and all instruction-result operands in the
module are below the id counter (an invariant of every reachable
generator state). -/
def instrIdsBelowB (st : GenState) : Bool :=
  st.blocks.all (fun q => q.2.instrs.all (fun p =>
    decide (p.1 < st.nextId) && p.2.operands.all (fun v => v.instIdLt st.nextId)))

theorem assocBlock_mem (l : List (Nat × Block)) (b : Nat) (blk : Block)
    (h : assocBlock l b = some blk) : (b, blk) ∈ l := by
  induction l with
  | nil => exact absurd h (by simp [assocBlock])
  | cons q rest ih =>
    by_cases hq : q.1 = b
    · simp only [assocBlock, hq, if_pos] at h
      cases h
      subst hq
      exact List.mem_cons_self _ _
    · simp only [assocBlock, hq, if_neg] at h
      exact List.mem_cons_of_mem q (ih h)

/-- A value with a fresh instruction id is not referenced by any
instruction already in the module. -/
theorem fresh_value_not_mentioned (st : GenState) (hf : instrIdsBelowB st = true)
    (b : Nat) (blk : Block) (hb : lookupBlock st b = some blk)
    (p : Nat × Instr) (hp : p ∈ blk.instrs) (t : Ty) (al : Bool) :
    Value.inst st.nextId t al ∉ p.2.operands := by
  intro hmem
  have hmem2 := assocBlock_mem st.blocks b blk hb
  have h1 := (List.all_eq_true.mp hf) (b, blk) hmem2
  have h2 := (List.all_eq_true.mp (by
    have := (Bool.and_eq_true _ _).mp ((List.all_eq_true.mp h1) p hp)
    exact this.2)) (Value.inst st.nextId t al) hmem
  simp [Value.instIdLt] at h2

@[simp] theorem getEntryBasicBlock_bump (st : GenState) (f : String) (n : Nat) :
    getEntryBasicBlock { st with nextId := n } f = getEntryBasicBlock st f := rfl

theorem lookupBlock_buildAllocaAtEntry (st : GenState) (f : String) (t : Ty)
    (nm : String) (ebb b : Nat) (hE : getEntryBasicBlock st f = some ebb) :
    lookupBlock (buildAllocaAtEntry st f t nm).1 b =
      if b = ebb then (lookupBlock st b).map
        (fun blk => ⟨blk.name, (st.nextId, Instr.alloca t nm) :: blk.instrs⟩)
      else lookupBlock st b := by
  unfold buildAllocaAtEntry
  simp only [getEntryBasicBlock_bump, hE]
  rw [lookupBlock_updateBlock]
  rfl

@[simp] theorem buildAllocaAtEntry_snd (st : GenState) (f : String) (t : Ty)
    (nm : String) : (buildAllocaAtEntry st f t nm).2 = Value.inst st.nextId (Ty.ptr t) true := by
  unfold buildAllocaAtEntry
  cases h : getEntryBasicBlock { st with nextId := st.nextId + 1 } f <;> simp [h]

@[simp] theorem buildAllocaAtEntry_insertPt (st : GenState) (f : String) (t : Ty)
    (nm : String) : ((buildAllocaAtEntry st f t nm).1).insertPt = st.insertPt := by
  unfold buildAllocaAtEntry
  cases h : getEntryBasicBlock { st with nextId := st.nextId + 1 } f <;>
    simp [h, updateBlock]

@[simp] theorem buildAllocaAtEntry_nextId (st : GenState) (f : String) (t : Ty)
    (nm : String) : ((buildAllocaAtEntry st f t nm).1).nextId = st.nextId + 1 := by
  unfold buildAllocaAtEntry
  cases h : getEntryBasicBlock { st with nextId := st.nextId + 1 } f <;>
    simp [h, updateBlock]

@[simp] theorem addCurrentScope_blocks (st : GenState) (nm : String) (v : Value)
    (t : Ty) (p : Bool) : (addCurrentScope st nm v t p).blocks = st.blocks := by
  unfold addCurrentScope
  cases st.localScopes <;> simp

@[simp] theorem addCurrentScope_insertPt (st : GenState) (nm : String) (v : Value)
    (t : Ty) (p : Bool) : (addCurrentScope st nm v t p).insertPt = st.insertPt := by
  unfold addCurrentScope
  cases st.localScopes <;> simp

@[simp] theorem addCurrentScope_nextId (st : GenState) (nm : String) (v : Value)
    (t : Ty) (p : Bool) : (addCurrentScope st nm v t p).nextId = st.nextId := by
  unfold addCurrentScope
  cases st.localScopes <;> simp

/-- C5: assigning to a name with no binding in any visible scope while
a current function is set creates the slot with an allocation that is
prepended to the entry block of the current function, before all of
that block's pre-existing instructions; the slot value carries a fresh
id, so no pre-existing instruction (in particular no load or store)
references it, and the store emitted for the assignment follows it.
-/
theorem assignment_fresh_allocates_in_entry (fuel : Nat) (st st1 : GenState)
    (nm : String) (e : Ast) (v : Value) (f : String) (ebb bb0 : Nat)
    (blkE blkB : Block)
    (hE : codegen_expr fuel st e = (st1, some v))
    (hNo : find_symbol st1 nm = none)
    (hFn : st1.currentFunction = some f)
    (hEntry : getEntryBasicBlock st1 f = some ebb)
    (hEb : lookupBlock st1 ebb = some blkE)
    (hip : st1.insertPt = some bb0)
    (hB0 : lookupBlock st1 bb0 = some blkB)
    (hfresh : instrIdsBelowB st1 = true) :
    (codegen_assignment (fuel + 1) st nm e).2 = some v ∧
    -- no pre-existing instruction references the new slot
    (∀ b blk, lookupBlock st1 b = some blk → ∀ p ∈ blk.instrs,
      Value.inst st1.nextId (Ty.ptr v.ty) true ∉ p.2.operands) ∧
    -- the alloca is prepended to the entry block; the store goes to
    -- the current block, after the alloca when they coincide
    (bb0 ≠ ebb →
      lookupBlock ((codegen_assignment (fuel + 1) st nm e).1) ebb
        = some ⟨blkE.name, (st1.nextId, Instr.alloca v.ty nm) :: blkE.instrs⟩ ∧
      lookupBlock ((codegen_assignment (fuel + 1) st nm e).1) bb0
        = some ⟨blkB.name, blkB.instrs ++
            [(st1.nextId + 1, Instr.store v (Value.inst st1.nextId (Ty.ptr v.ty) true))]⟩) ∧
    (bb0 = ebb →
      lookupBlock ((codegen_assignment (fuel + 1) st nm e).1) ebb
        = some ⟨blkE.name, ((st1.nextId, Instr.alloca v.ty nm) :: blkE.instrs) ++
            [(st1.nextId + 1, Instr.store v (Value.inst st1.nextId (Ty.ptr v.ty) true))]⟩) := by
  have hmention : ∀ b blk, lookupBlock st1 b = some blk → ∀ p ∈ blk.instrs,
      Value.inst st1.nextId (Ty.ptr v.ty) true ∉ p.2.operands :=
    fun b blk hb p hp => fresh_value_not_mentioned st1 hfresh b blk hb p hp _ _
  have hun : codegen_assignment (fuel + 1) st nm e =
      ((buildInstr (addCurrentScope (buildAllocaAtEntry st1 f v.ty nm).1 nm
          (Value.inst st1.nextId (Ty.ptr v.ty) true) v.ty false)
        (Instr.store v (Value.inst st1.nextId (Ty.ptr v.ty) true))).1, some v) := by
    simp only [codegen_assignment, hE]
    simp [hNo, hFn]
  have hscope : ∀ b, lookupBlock (addCurrentScope (buildAllocaAtEntry st1 f v.ty nm).1 nm
      (Value.inst st1.nextId (Ty.ptr v.ty) true) v.ty false) b
      = lookupBlock (buildAllocaAtEntry st1 f v.ty nm).1 b := by
    intro b
    unfold lookupBlock
    rw [addCurrentScope_blocks]
  have hip2 : (addCurrentScope (buildAllocaAtEntry st1 f v.ty nm).1 nm
      (Value.inst st1.nextId (Ty.ptr v.ty) true) v.ty false).insertPt = some bb0 := by
    simp [hip]
  have hnid : (addCurrentScope (buildAllocaAtEntry st1 f v.ty nm).1 nm
      (Value.inst st1.nextId (Ty.ptr v.ty) true) v.ty false).nextId = st1.nextId + 1 := by
    simp
  refine ⟨by rw [hun], hmention, ?_, ?_⟩
  · intro hne
    constructor
    · rw [hun]
      rw [lookupBlock_buildInstr _ _ bb0 ebb hip2, if_neg (Ne.symm hne), hscope,
        lookupBlock_buildAllocaAtEntry st1 f v.ty nm ebb ebb hEntry, if_pos rfl, hEb]
      rfl
    · rw [hun]
      rw [lookupBlock_buildInstr _ _ bb0 bb0 hip2, if_pos rfl, hscope,
        lookupBlock_buildAllocaAtEntry st1 f v.ty nm ebb bb0 hEntry, if_neg hne, hB0,
        hnid]
      rfl
  · intro heq
    rw [hun]
    rw [lookupBlock_buildInstr _ _ ebb ebb (by rw [← heq]; exact hip2), if_pos rfl, hscope,
      lookupBlock_buildAllocaAtEntry st1 f v.ty nm ebb ebb hEntry, if_pos rfl, hEb, hnid]
    rfl

/-- A concrete state for the C5 witness: entry block 0 already holds
an instruction, and the builder sits in a later block 2. -/
def stAssign : GenState :=
  ⟨[(0, ⟨"entry", [(1, Instr.br 2)]⟩), (2, ⟨"body", []⟩)],
   [⟨"main", Ty.fn [] Ty.i32 false, [0, 2]⟩], [], 3, some 2, some "main",
   none, none, none, [], [[]], []⟩

/-- Witness for C5: `y = 7` prepends the alloca to entry block 0,
before the pre-existing branch, and stores into the current block 2. -/
theorem assignment_fresh_allocates_in_entry_witness :
    (codegen_assignment 9 stAssign "y" (Ast.number 7)).2
      = some (Value.constInt Ty.i32 7) ∧
    lookupBlock ((codegen_assignment 9 stAssign "y" (Ast.number 7)).1) 0
      = some ⟨"entry", [(3, Instr.alloca Ty.i32 "y"), (1, Instr.br 2)]⟩ ∧
    lookupBlock ((codegen_assignment 9 stAssign "y" (Ast.number 7)).1) 2
      = some ⟨"body", [(4, Instr.store (Value.constInt Ty.i32 7)
          (Value.inst 3 (Ty.ptr Ty.i32) true))]⟩ := by
  have h := assignment_fresh_allocates_in_entry 8 stAssign stAssign "y" (Ast.number 7)
    (Value.constInt Ty.i32 7) "main" 0 2 ⟨"entry", [(1, Instr.br 2)]⟩ ⟨"body", []⟩
    rfl rfl rfl rfl rfl rfl rfl (by decide)
  obtain ⟨hv, _, hne, _⟩ := h
  have h2 := hne (by decide)
  exact ⟨hv, h2.1, h2.2⟩

/-! ### Claim C6 -/

@[simp] theorem buildInstr_localScopes (st : GenState) (i : Instr) :
    ((buildInstr st i).1).localScopes = st.localScopes := by
  unfold buildInstr
  cases h : st.insertPt <;> simp [h, updateBlock]

@[simp] theorem appendBBF_localScopes (st : GenState) (f n : String) :
    ((appendBasicBlockInFunc st f n).1).localScopes = st.localScopes := rfl

@[simp] theorem positionAtEnd_localScopes (st : GenState) (b : Nat) :
    (positionAtEnd st b).localScopes = st.localScopes := rfl

@[simp] theorem addFunction_localScopes (st : GenState) (f : String) (s : Ty) :
    (addFunction st f s).localScopes = st.localScopes := rfl

@[simp] theorem buildInstr_globalScope (st : GenState) (i : Instr) :
    ((buildInstr st i).1).globalScope = st.globalScope := by
  unfold buildInstr
  cases h : st.insertPt <;> simp [h, updateBlock]

@[simp] theorem appendBBF_globalScope (st : GenState) (f n : String) :
    ((appendBasicBlockInFunc st f n).1).globalScope = st.globalScope := rfl

@[simp] theorem positionAtEnd_globalScope (st : GenState) (b : Nat) :
    (positionAtEnd st b).globalScope = st.globalScope := rfl

theorem addCurrentScope_cons (st : GenState) (nm : String) (v : Value) (t : Ty)
    (p : Bool) (acc : List Sym) (rest : List (List Sym))
    (h : st.localScopes = acc :: rest) :
    (addCurrentScope st nm v t p).localScopes = add_symbol acc nm v t p :: rest ∧
    (addCurrentScope st nm v t p).globalScope = st.globalScope := by
  unfold addCurrentScope
  rw [h]
  exact ⟨rfl, rfl⟩

theorem add_symbol_append (scope : List Sym) (nm : String) (v : Value) (t : Ty)
    (p : Bool) (hlen : scope.length < SYMBOL_TABLE_SIZE)
    (hnm : ∀ s ∈ scope, s.name ≠ nm) :
    add_symbol scope nm v t p = scope ++ [⟨nm, v, t, p⟩] := by
  unfold add_symbol
  rw [if_neg (by omega), if_neg ?_]
  intro hcon
  rw [List.any_eq_true] at hcon
  obtain ⟨s, hs, he⟩ := hcon
  exact hnm s hs (by simpa using he)

/-- Binding the formal parameters only appends param symbols to the
innermost scope. -/
theorem bindParams_scopes (fname : String) : ∀ (ps : List String) (st : GenState)
    (i : Nat) (acc : List Sym) (rest : List (List Sym)),
    st.localScopes = acc :: rest →
    acc.length + ps.length ≤ SYMBOL_TABLE_SIZE →
    ps.Nodup →
    (∀ s ∈ acc, s.name ∉ ps) →
    ∃ syms : List Sym,
      (bindParams st fname ps i).localScopes = (acc ++ syms) :: rest ∧
      syms.map Sym.name = ps ∧
      (bindParams st fname ps i).globalScope = st.globalScope
  | [], st, i, acc, rest, h, _, _, _ => ⟨[], by simpa [bindParams] using h, rfl, rfl⟩
  | p :: ps, st, i, acc, rest, h, hlen, hnd, hdisj => by
    simp only [bindParams]
    have hlen2 : acc.length < SYMBOL_TABLE_SIZE := by
      simp [List.length_cons] at hlen
      omega
    have hnames : ∀ s ∈ acc, s.name ≠ p := fun s hs => by
      have := hdisj s hs
      simp only [List.mem_cons, not_or] at this
      exact this.1
    have hmid := addCurrentScope_cons
      (buildInstr (buildInstr st (Instr.alloca Ty.i32 p)).1
        (Instr.store (Value.paramVal fname i Ty.i32)
          (buildInstr st (Instr.alloca Ty.i32 p)).2)).1 p
      (buildInstr st (Instr.alloca Ty.i32 p)).2 Ty.i32 true acc rest (by simpa using h)
    have hrec := bindParams_scopes fname ps
      (addCurrentScope (buildInstr (buildInstr st (Instr.alloca Ty.i32 p)).1
        (Instr.store (Value.paramVal fname i Ty.i32)
          (buildInstr st (Instr.alloca Ty.i32 p)).2)).1 p
        (buildInstr st (Instr.alloca Ty.i32 p)).2 Ty.i32 true)
      (i + 1)
      (acc ++ [⟨p, (buildInstr st (Instr.alloca Ty.i32 p)).2, Ty.i32, true⟩]) rest
      (by rw [hmid.1, add_symbol_append acc p _ _ _ hlen2 hnames])
      (by simp at hlen ⊢; omega)
      (List.Nodup.of_cons hnd)
      (by
        intro s hs
        rcases List.mem_append.mp hs with hs1 | hs2
        · have := hdisj s hs1
          simp only [List.mem_cons, not_or] at this
          exact this.2
        · simp at hs2
          rw [hs2]
          simp only []
          exact (List.nodup_cons.mp hnd).1)
    obtain ⟨syms, h1, h2, h3⟩ := hrec
    refine ⟨⟨p, (buildInstr st (Instr.alloca Ty.i32 p)).2, Ty.i32, true⟩ :: syms, ?_, ?_, ?_⟩
    · rw [h1, List.append_assoc]
      rfl
    · simp [h2]
    · rw [h3, hmid.2]
      simp

@[simp] theorem buildInstr_currentFunction (st : GenState) (i : Instr) :
    ((buildInstr st i).1).currentFunction = st.currentFunction := by
  unfold buildInstr
  cases h : st.insertPt <;> simp [h, updateBlock]

@[simp] theorem addCurrentScope_currentFunction (st : GenState) (nm : String)
    (v : Value) (t : Ty) (p : Bool) :
    (addCurrentScope st nm v t p).currentFunction = st.currentFunction := by
  unfold addCurrentScope
  cases st.localScopes <;> simp

@[simp] theorem bindParams_currentFunction (st : GenState) (f : String)
    (ps : List String) (i : Nat) :
    (bindParams st f ps i).currentFunction = st.currentFunction := by
  induction ps generalizing st i with
  | nil => rfl
  | cons p rest ih => simp [bindParams, ih]

/-- C6: the scope used for a function body is one fresh scope whose
parent is the global scope — the definition-site scope chain is not in
the chain at all — and the function handle is registered in the global
scope (`codegen_func_def` targets `global_symbols` directly),
regardless of where the definition appears.  The last conjunct records
that `codegen_func_def` lowers the body exactly in this prologue
state. -/
theorem func_def_scope_parented_at_global (st : GenState) (nm : String)
    (ps : List String) (hlen : ps.length <= SYMBOL_TABLE_SIZE) (hnd : ps.Nodup) :
    (∃ syms : List Sym,
      ((func_def_setup st nm ps).1).localScopes = [syms] ∧
      syms.map Sym.name = ps) ∧
    ((func_def_setup st nm ps).1).globalScope
      = add_symbol st.globalScope nm
          (Value.funcVal nm (Ty.fn (ps.map fun _ => Ty.i32) Ty.i32 false))
          (Ty.fn (ps.map fun _ => Ty.i32) Ty.i32 false) false ∧
    ((func_def_setup st nm ps).1).currentFunction = some nm ∧
    (∀ fuel body, codegen_func_def (fuel + 1) st nm ps body
      = ({ defaultRetIfUnterminated
            (lower_body_list fuel (func_def_setup st nm ps).1 body) Ty.i32 with
           insertPt := st.insertPt, currentFunction := st.currentFunction,
           localScopes := st.localScopes }, some (func_def_setup st nm ps).2)) := by
  have key : ∀ stX : GenState, stX.localScopes = [[]] →
      (∃ syms : List Sym, (bindParams stX nm ps 0).localScopes = [syms] ∧
        syms.map Sym.name = ps) ∧
      (bindParams stX nm ps 0).globalScope = stX.globalScope ∧
      (bindParams stX nm ps 0).currentFunction = stX.currentFunction := by
    intro stX hX
    obtain ⟨syms, h1, h2, h3⟩ := bindParams_scopes nm ps stX 0 [] [] hX
      (by simpa using hlen) hnd (by simp)
    exact ⟨⟨syms, by simpa using h1, h2⟩, h3, by simp⟩
  refine ⟨?_, ?_, ?_, fun fuel body => rfl⟩
  · exact (key _ rfl).1
  · exact ((key _ rfl).2.1).trans rfl
  · exact ((key _ rfl).2.2).trans rfl

/-- A definition site buried inside another function: the current
scope chain is nonempty and a current function is set. -/
def stDef : GenState :=
  { initState with
    localScopes := [[⟨"x", Value.constInt Ty.i32 1, Ty.i32, false⟩]],
    currentFunction := some "g" }

theorem func_def_scope_parented_at_global_witness :
    (∃ syms : List Sym,
      ((func_def_setup stDef "f" ["a", "b"]).1).localScopes = [syms] ∧
      syms.map Sym.name = ["a", "b"]) ∧
    ((func_def_setup stDef "f" ["a", "b"]).1).currentFunction = some "f" := by
  have h := func_def_scope_parented_at_global stDef "f" ["a", "b"]
    (by decide) (by decide)
  exact ⟨h.1, h.2.2.1⟩

/-- Witness for C1 at `1 and (2 and 3)`: the inner `and` moves the
builder to block 6, and the outer phi's right predecessor is 6, not
the outer eval-right block 1. -/
theorem and_lowering_shape_witness :
    lookupBlock stAnd 1 = none ∧
    stR0W.insertPt = some 1 ∧
    blockTerminator stR0W 0
      = some (Instr.condbr (Value.inst 3 Ty.i1 false) 1 2) ∧
    (codegen_binop 11 stAnd Op.and andL andR).2 = some (Value.inst 14 Ty.i1 false) ∧
    lookupBlock ((codegen_binop 11 stAnd Op.and andL andR).1) 2
      = some ⟨"and.merge", [(14, Instr.phi Ty.i1
          [(Value.inst 12 Ty.i1 false, 6), (Value.constInt Ty.i1 0, 0)])]⟩ := by
  have h := and_lowering_shape 10 stAnd stAnd andL andR (Value.constInt Ty.i32 1)
    0 "main" ⟨"entry", []⟩ stBW stR0W pRW 6
    ⟨"and.merge", [(11, Instr.phi Ty.i1 [(Value.inst 9 Ty.i1 false, 5),
       (Value.constInt Ty.i1 0, 1)])]⟩
    ⟨"and.merge", []⟩
    rfl rfl rfl rfl (by decide) rfl rfl rfl rfl (by decide) rfl rfl
  exact ⟨h.1, h.2.2.1, h.2.2.2.2.2.1, h.2.2.2.2.2.2.1, h.2.2.2.2.2.2.2.2.2⟩


/-! ### Claim C8 -/

theorem lower_body_list_none : ∀ (fuel : Nat) (st : GenState),
    lower_body_list fuel st none = st
  | 0, _ => rfl
  | _+1, _ => rfl

theorem lookupBlock_positionAtEnd (st : GenState) (b c : Nat) :
    lookupBlock (positionAtEnd st b) c = lookupBlock st c := rfl

theorem lookupBlock_appendExistingBasicBlock (st : GenState) (f : String)
    (b c : Nat) :
    lookupBlock (appendExistingBasicBlock st f b) c = lookupBlock st c := rfl

@[simp] theorem appendExistingBasicBlock_insertPt (st : GenState) (f : String)
    (b : Nat) : (appendExistingBasicBlock st f b).insertPt = st.insertPt := rfl

@[simp] theorem appendExistingBasicBlock_nextId (st : GenState) (f : String)
    (b : Nat) : (appendExistingBasicBlock st f b).nextId = st.nextId := rfl

@[simp] theorem buildInstr_funcs (st : GenState) (i : Instr) :
    ((buildInstr st i).1).funcs = st.funcs := by
  unfold buildInstr
  cases h : st.insertPt <;> simp [h, updateBlock]

@[simp] theorem createBasicBlock_funcs (st : GenState) (n : String) :
    ((createBasicBlock st n).1).funcs = st.funcs := rfl

@[simp] theorem positionAtEnd_funcs (st : GenState) (b : Nat) :
    (positionAtEnd st b).funcs = st.funcs := rfl

theorem appendBBF_funcs (st : GenState) (f n : String) :
    ((appendBasicBlockInFunc st f n).1).funcs
      = st.funcs.map (fun g =>
          if g.name = f then { g with blockIds := g.blockIds ++ [st.nextId] }
          else g) := rfl

theorem appendExistingBasicBlock_funcs (st : GenState) (f : String) (b : Nat) :
    (appendExistingBasicBlock st f b).funcs
      = st.funcs.map (fun g =>
          if g.name = f then { g with blockIds := g.blockIds ++ [b] }
          else g) := rfl

/-- LLVMBuildBr is emitted by the fall-through check exactly when the
current block has no terminator. -/
theorem brIfUnterminated_build (st : GenState) (bb dest : Nat)
    (h : st.insertPt = some bb) (ht : blockTerminator st bb = none) :
    brIfUnterminated st dest = (buildInstr st (Instr.br dest)).1 := by
  unfold brIfUnterminated
  rw [h]
  simp [ht]

/-- C8 (amended): lowering an `if` with NO else-list still creates a
block named "else" (id `st1.nextId + 1`, via LLVMCreateBasicBlock): it
stays in the context pool, empty and attached to no function — only
`then` (id `st1.nextId`) and `ifcont` (id `st1.nextId + 2`) are
appended — and the conditional branch does send its false edge
directly to `ifcont`. -/
theorem if_else_without_else_shape (fuel : Nat) (st st1 : GenState) (cond : Ast)
    (c0 : Value) (bbL : Nat) (f : String) (blkL : Block) (ST7 : GenState)
    (h1 : codegen_expr fuel st cond = (st1, some c0))
    (h2 : c0.ty = Ty.i1)
    (h3 : st1.insertPt = some bbL)
    (h4 : lookupBlock st1 bbL = some blkL)
    (h5 : st1.currentFunction = some f)
    (hfresh : blocksBelowB st1 = true)
    (hfuncs : ∀ g ∈ st1.funcs, ∀ b ∈ g.blockIds, b < st1.nextId)
    (h7 : ST7 = positionAtEnd
      (buildInstr
        (createBasicBlock
          (createBasicBlock (appendBasicBlockInFunc st1 f "then").1 "else").1
          "ifcont").1
        (Instr.condbr c0 st1.nextId (st1.nextId + 2))).1 st1.nextId) :
    lookupBlock ((codegen_if_else (fuel + 1) st cond none none).1) (st1.nextId + 1)
      = some ⟨"else", []⟩ ∧
    (∀ g ∈ ((codegen_if_else (fuel + 1) st cond none none).1).funcs,
      st1.nextId + 1 ∉ g.blockIds) ∧
    blockTerminator ((codegen_if_else (fuel + 1) st cond none none).1) bbL
      = some (Instr.condbr c0 st1.nextId (st1.nextId + 2)) ∧
    lookupBlock ((codegen_if_else (fuel + 1) st cond none none).1) st1.nextId
      = some ⟨"then", [(st1.nextId + 4, Instr.br (st1.nextId + 2))]⟩ ∧
    lookupBlock ((codegen_if_else (fuel + 1) st cond none none).1) (st1.nextId + 2)
      = some ⟨"ifcont", []⟩ ∧
    ((codegen_if_else (fuel + 1) st cond none none).1).insertPt
      = some (st1.nextId + 2) ∧
    (codegen_if_else (fuel + 1) st cond none none).2 = none := by
  have hnewB : lookupBlock st1 st1.nextId = none :=
    lookupBlock_none_of_ge st1 _ hfresh (Nat.le_refl _)
  have hnewB1 : lookupBlock st1 (st1.nextId + 1) = none :=
    lookupBlock_none_of_ge st1 _ hfresh (by omega)
  have hnewB2 : lookupBlock st1 (st1.nextId + 2) = none :=
    lookupBlock_none_of_ge st1 _ hfresh (by omega)
  have hblt : bbL < st1.nextId := lookupBlock_lt_of_some st1 bbL blkL hfresh h4
  have aL : lookupBlock (appendBasicBlockInFunc st1 f "then").1 bbL = some blkL :=
    lookupBlock_appendBBF_found _ _ _ _ _ h4
  have aB : lookupBlock (appendBasicBlockInFunc st1 f "then").1 st1.nextId
      = some ⟨"then", []⟩ := lookupBlock_appendBBF_new _ _ _ hnewB
  have aB1 : lookupBlock (appendBasicBlockInFunc st1 f "then").1 (st1.nextId + 1)
      = none := by
    rw [lookupBlock_appendBasicBlockInFunc, hnewB1]
    simp
  have aB2 : lookupBlock (appendBasicBlockInFunc st1 f "then").1 (st1.nextId + 2)
      = none := by
    rw [lookupBlock_appendBasicBlockInFunc, hnewB2]
    simp
  have bL : lookupBlock (createBasicBlock (appendBasicBlockInFunc st1 f "then").1
      "else").1 bbL = some blkL := lookupBlock_createBB_found _ _ _ _ aL
  have bB : lookupBlock (createBasicBlock (appendBasicBlockInFunc st1 f "then").1
      "else").1 st1.nextId = some ⟨"then", []⟩ := lookupBlock_createBB_found _ _ _ _ aB
  have bB1 : lookupBlock (createBasicBlock (appendBasicBlockInFunc st1 f "then").1
      "else").1 (st1.nextId + 1) = some ⟨"else", []⟩ :=
    lookupBlock_createBB_new _ _ aB1
  have bB2 : lookupBlock (createBasicBlock (appendBasicBlockInFunc st1 f "then").1
      "else").1 (st1.nextId + 2) = none := by
    rw [lookupBlock_createBasicBlock, aB2]
    simp
  have cL : lookupBlock (createBasicBlock (createBasicBlock
      (appendBasicBlockInFunc st1 f "then").1 "else").1 "ifcont").1 bbL
      = some blkL := lookupBlock_createBB_found _ _ _ _ bL
  have cB : lookupBlock (createBasicBlock (createBasicBlock
      (appendBasicBlockInFunc st1 f "then").1 "else").1 "ifcont").1 st1.nextId
      = some ⟨"then", []⟩ := lookupBlock_createBB_found _ _ _ _ bB
  have cB1 : lookupBlock (createBasicBlock (createBasicBlock
      (appendBasicBlockInFunc st1 f "then").1 "else").1 "ifcont").1 (st1.nextId + 1)
      = some ⟨"else", []⟩ := lookupBlock_createBB_found _ _ _ _ bB1
  have cB2 : lookupBlock (createBasicBlock (createBasicBlock
      (appendBasicBlockInFunc st1 f "then").1 "else").1 "ifcont").1 (st1.nextId + 2)
      = some ⟨"ifcont", []⟩ := lookupBlock_createBB_new _ _ bB2
  have hipC : (createBasicBlock (createBasicBlock
      (appendBasicBlockInFunc st1 f "then").1 "else").1 "ifcont").1.insertPt
      = some bbL := by simp [h3]
  have dL : lookupBlock ST7 bbL = some ⟨blkL.name, blkL.instrs ++
      [(st1.nextId + 3, Instr.condbr c0 st1.nextId (st1.nextId + 2))]⟩ := by
    subst h7
    rw [lookupBlock_positionAtEnd]
    have := lookupBlock_buildInstr_same _
      (Instr.condbr c0 st1.nextId (st1.nextId + 2)) bbL blkL hipC cL
    simpa [Nat.add_assoc] using this
  have dB : lookupBlock ST7 st1.nextId = some ⟨"then", []⟩ := by
    subst h7
    rw [lookupBlock_positionAtEnd, lookupBlock_buildInstr_ne _ _ bbL _ hipC (by omega)]
    exact cB
  have dB1 : lookupBlock ST7 (st1.nextId + 1) = some ⟨"else", []⟩ := by
    subst h7
    rw [lookupBlock_positionAtEnd, lookupBlock_buildInstr_ne _ _ bbL _ hipC (by omega)]
    exact cB1
  have dB2 : lookupBlock ST7 (st1.nextId + 2) = some ⟨"ifcont", []⟩ := by
    subst h7
    rw [lookupBlock_positionAtEnd, lookupBlock_buildInstr_ne _ _ bbL _ hipC (by omega)]
    exact cB2
  have hip7 : ST7.insertPt = some st1.nextId := by subst h7; rfl
  have hnxt7 : ST7.nextId = st1.nextId + 4 := by subst h7; simp [Nat.add_assoc]
  have htermB : blockTerminator ST7 st1.nextId = none := by
    unfold blockTerminator
    rw [dB]
    rfl
  have hst8 : brIfUnterminated ST7 (st1.nextId + 2)
      = (buildInstr ST7 (Instr.br (st1.nextId + 2))).1 :=
    brIfUnterminated_build ST7 st1.nextId (st1.nextId + 2) hip7 htermB
  have eB : lookupBlock (buildInstr ST7 (Instr.br (st1.nextId + 2))).1 st1.nextId
      = some ⟨"then", [(st1.nextId + 4, Instr.br (st1.nextId + 2))]⟩ := by
    have := lookupBlock_buildInstr_same ST7 (Instr.br (st1.nextId + 2))
      st1.nextId _ hip7 dB
    simpa [hnxt7] using this
  have eL : lookupBlock (buildInstr ST7 (Instr.br (st1.nextId + 2))).1 bbL
      = some ⟨blkL.name, blkL.instrs ++
        [(st1.nextId + 3, Instr.condbr c0 st1.nextId (st1.nextId + 2))]⟩ := by
    rw [lookupBlock_buildInstr_ne _ _ st1.nextId _ hip7 (by omega)]
    exact dL
  have eB1 : lookupBlock (buildInstr ST7 (Instr.br (st1.nextId + 2))).1
      (st1.nextId + 1) = some ⟨"else", []⟩ := by
    rw [lookupBlock_buildInstr_ne _ _ st1.nextId _ hip7 (by omega)]
    exact dB1
  have eB2 : lookupBlock (buildInstr ST7 (Instr.br (st1.nextId + 2))).1
      (st1.nextId + 2) = some ⟨"ifcont", []⟩ := by
    rw [lookupBlock_buildInstr_ne _ _ st1.nextId _ hip7 (by omega)]
    exact dB2
  have hres : codegen_if_else (fuel + 1) st cond none none
      = (positionAtEnd (appendExistingBasicBlock
          (brIfUnterminated ST7 (st1.nextId + 2)) f (st1.nextId + 2))
          (st1.nextId + 2), none) := by
    subst h7
    simp only [codegen_if_else, h1]
    simp [h2, h5, lower_body_list_none, Nat.add_assoc]
  rw [hres]
  refine ⟨?_, ?_, ?_, ?_, ?_, rfl, rfl⟩
  · rw [lookupBlock_positionAtEnd, lookupBlock_appendExistingBasicBlock, hst8]
    exact eB1
  · intro g hg hmem
    rw [positionAtEnd_funcs, appendExistingBasicBlock_funcs, hst8] at hg
    rw [buildInstr_funcs] at hg
    have h7f : ST7.funcs = st1.funcs.map (fun g0 =>
        if g0.name = f then { g0 with blockIds := g0.blockIds ++ [st1.nextId] }
        else g0) := by
      subst h7
      rw [positionAtEnd_funcs, buildInstr_funcs, createBasicBlock_funcs,
        createBasicBlock_funcs, appendBBF_funcs]
    rw [h7f] at hg
    rw [List.mem_map] at hg
    obtain ⟨g1, hg1, hgeq⟩ := hg
    rw [List.mem_map] at hg1
    obtain ⟨g0, hg0, hg0eq⟩ := hg1
    have hlt := hfuncs g0 hg0
    subst hgeq
    subst hg0eq
    by_cases hn : g0.name = f
    · simp [hn] at hmem
      exact absurd (hlt _ hmem) (by omega)
    · simp [hn] at hmem
      exact absurd (hlt _ hmem) (by omega)
  · refine blockTerminator_of_lookup _ bbL
      ⟨blkL.name, blkL.instrs ++
        [(st1.nextId + 3, Instr.condbr c0 st1.nextId (st1.nextId + 2))]⟩
      (st1.nextId + 3) _ ?_ (getLast?_append_singleton _ _) rfl
    show lookupBlock (positionAtEnd _ _) bbL = _
    rw [lookupBlock_positionAtEnd, lookupBlock_appendExistingBasicBlock, hst8]
    exact eL
  · rw [lookupBlock_positionAtEnd, lookupBlock_appendExistingBasicBlock, hst8]
    exact eB
  · rw [lookupBlock_positionAtEnd, lookupBlock_appendExistingBasicBlock, hst8]
    exact eB2

/-- A one-function module positioned in main's empty entry block. -/
def stIf : GenState :=
  { initState with
    funcs := [⟨"main", Ty.fn [] Ty.i32 false, [0]⟩],
    blocks := [(0, ⟨"entry", []⟩)],
    nextId := 1, insertPt := some 0, currentFunction := some "main" }

/-- The condition `1 < 2` (an i1-typed comparison). -/
def condW : Ast := Ast.binop Op.lt (Ast.number 1) (Ast.number 2)

/-- The state after lowering `condW` from `stIf`. -/
def st1W : GenState :=
  { initState with
    funcs := [⟨"main", Ty.fn [] Ty.i32 false, [0]⟩],
    blocks := [(0, ⟨"entry", [(1, Instr.icmp Pred.slt
      (Value.constInt Ty.i32 1) (Value.constInt Ty.i32 2))]⟩)],
    nextId := 2, insertPt := some 0, currentFunction := some "main" }

/-- C8: the claim as stated is refuted: lowering an `if` whose
else-list is absent still creates a block named "else" — the claim
says only `then` and `merge` blocks are created in that case. -/
theorem if_else_claim_counterexample :
    stIf.blocks.countP (fun q => q.2.name = "else") = 0 ∧
    ¬ (((codegen_if_else 4 stIf condW none none).1).blocks.countP
        (fun q => q.2.name = "else") = 0) := by decide

theorem if_else_without_else_witness :
    lookupBlock ((codegen_if_else 4 stIf condW none none).1) 3
      = some ⟨"else", []⟩ ∧
    blockTerminator ((codegen_if_else 4 stIf condW none none).1) 0
      = some (Instr.condbr (Value.inst 1 Ty.i1 false) 2 4) ∧
    ((codegen_if_else 4 stIf condW none none).1).insertPt = some 4 := by
  have h := if_else_without_else_shape 3 stIf st1W condW
    (Value.inst 1 Ty.i1 false) 0 "main"
    ⟨"entry", [(1, Instr.icmp Pred.slt
      (Value.constInt Ty.i32 1) (Value.constInt Ty.i32 2))]⟩ _
    (by decide) rfl rfl (by decide) rfl (by decide) (by decide) rfl
  exact ⟨h.1, h.2.2.1, h.2.2.2.2.2.1⟩

/-! ### Claim C9 -/

@[simp] theorem get_printf_function_globals (st : GenState) :
    ((get_printf_function st).1).globals = st.globals := by
  unfold get_printf_function
  split <;> rfl

@[simp] theorem get_printf_function_nextId (st : GenState) :
    ((get_printf_function st).1).nextId = st.nextId := by
  unfold get_printf_function
  split <;> rfl

@[simp] theorem buildInstr_globals (st : GenState) (i : Instr) :
    ((buildInstr st i).1).globals = st.globals := by
  unfold buildInstr
  cases h : st.insertPt <;> simp [h, updateBlock]

theorem buildGlobalStringPtr_globals (st : GenState) (s nm : String) :
    ((buildGlobalStringPtr st s nm).1).globals
      = st.globals ++ [⟨st.nextId, nm, some s, Ty.i8⟩] := rfl

/-- C9 (amended): `LLVMBuildGlobalStringPtr` runs on every print call:
a print of an i32 argument appends one FRESH `".fmt_int_ln"` global
holding `"%d\n"` to the module — it never reuses an existing one — so
the count of `"%d\n"` globals grows by one at each such call, and two
integer prints leave two copies.  Nothing is materialized once per
kind. -/
theorem print_call_materializes_format_per_call (st : GenState) (arg : Value)
    (h : arg.ty = Ty.i32) :
    ((print_with_arg st arg).1).globals
      = st.globals ++ [⟨st.nextId, ".fmt_int_ln", some "%d\n", Ty.i8⟩] ∧
    ((print_with_arg st arg).1).globals.countP
        (fun g => g.content = some "%d\n")
      = st.globals.countP (fun g => g.content = some "%d\n") + 1 := by
  have hmain : ((print_with_arg st arg).1).globals
      = st.globals ++ [⟨st.nextId, ".fmt_int_ln", some "%d\n", Ty.i8⟩] := by
    unfold print_with_arg
    rw [h]
    simp [emitSome, buildGlobalStringPtr_globals]
  refine ⟨hmain, ?_⟩
  rw [hmain]
  simp [List.countP_append, List.countP_cons]

theorem print_call_materializes_format_witness :
    ((print_with_arg initState (Value.constInt Ty.i32 5)).1).globals
      = [⟨0, ".fmt_int_ln", some "%d\n", Ty.i8⟩] :=
  (print_call_materializes_format_per_call initState
    (Value.constInt Ty.i32 5) rfl).1

/-- C9: the claim as stated is refuted: compiling two integer prints
materializes the integer format string twice, not at most once. -/
theorem print_format_once_counterexample :
    ¬ ((llvm_generate_code 6 initState (Ast.stmtlist
        [Ast.printcall (some (Ast.number 1)),
         Ast.printcall (some (Ast.number 2))])).globals.countP
        (fun g => g.content = some "%d\n") ≤ 1) ∧
    (llvm_generate_code 6 initState (Ast.stmtlist
        [Ast.printcall (some (Ast.number 1)),
         Ast.printcall (some (Ast.number 2))])).globals.countP
        (fun g => g.content = some "%d\n") = 2 := by decide

/-! ### Claim C10 -/

/-- C10: the two-fold lowering never happens, because the piped
for-each never reaches codegen_for_loop at all.  codegen_pipeline's
for-loop arm dispatches the spliced loop node through codegen_expr,
whose switch has no for-loop case: compiling
`range(1,4) |> for each { }` emits only the unrecognized-expression
diagnostic, produces NO loop blocks whatsoever (the module holds just
the entry block with the default return), and the range is lowered
once, by the pipeline's left-expression step. -/
theorem piped_for_each_never_lowers_loop :
    "AST node type is not a recognized expression type"
      ∈ (llvm_generate_code 8 initState (Ast.stmtlist
          [Ast.pipeline (Ast.range (Ast.number 1) (Ast.number 4))
            (Ast.forloop none "item" (some (Ast.stmtlist [])))])).diags ∧
    (llvm_generate_code 8 initState (Ast.stmtlist
        [Ast.pipeline (Ast.range (Ast.number 1) (Ast.number 4))
          (Ast.forloop none "item" (some (Ast.stmtlist [])))])).blocks.countP
        (fun q => q.2.name = "loop.cond") = 0 ∧
    (llvm_generate_code 8 initState (Ast.stmtlist
        [Ast.pipeline (Ast.range (Ast.number 1) (Ast.number 4))
          (Ast.forloop none "item" (some (Ast.stmtlist [])))])).blocks.map
        (fun q => q.2.name) = ["main_script_entry"] := by decide

/-! ### Claim C3 -/

/-- The module the generator emits for `for range(a,b) each { }` at
the top level of a script. -/
def forEachProgram (a b : Int) : GenState :=
  llvm_generate_code 6 initState (Ast.stmtlist
    [Ast.forloop (some (Ast.range (Ast.number a) (Ast.number b))) "i"
      (some (Ast.stmtlist []))])

/-- The module the generator emits for `for range(0,2) each
{ return 0 }`. -/
def forErProgram : GenState :=
  llvm_generate_code 8 initState (Ast.stmtlist
    [Ast.forloop (some (Ast.range (Ast.number 0) (Ast.number 2))) "i"
      (some (Ast.stmtlist [Ast.ret (some (Ast.number 0))]))])

/-- `forEachProgram a b`, written out block by block (the two
occurrences of the bounds are the initial store of `a` and the
comparison against `b`).  The amended theorem takes the equation as a
hypothesis; its witness discharges it by evaluation. -/
def forEachProgGiven (a b : Int) : GenState :=
  { blocks := [
      (0, ⟨"main_script_entry",
        [(1, Instr.alloca Ty.i32 "i"),
         (2, Instr.store (Value.constInt Ty.i32 a) (Value.inst 1 (Ty.ptr Ty.i32) true)),
         (7, Instr.br 3)]⟩),
      (3, ⟨"loop.cond",
        [(8, Instr.load Ty.i32 (Value.inst 1 (Ty.ptr Ty.i32) true)),
         (9, Instr.icmp Pred.slt (Value.inst 8 Ty.i32 false) (Value.constInt Ty.i32 b)),
         (10, Instr.condbr (Value.inst 9 Ty.i1 false) 4 6)]⟩),
      (4, ⟨"loop.body", [(11, Instr.br 5)]⟩),
      (5, ⟨"loop.inc",
        [(12, Instr.load Ty.i32 (Value.inst 1 (Ty.ptr Ty.i32) true)),
         (13, Instr.add (Value.inst 12 Ty.i32 false) (Value.constInt Ty.i32 1)),
         (14, Instr.store (Value.inst 13 Ty.i32 false) (Value.inst 1 (Ty.ptr Ty.i32) true)),
         (15, Instr.br 3)]⟩),
      (6, ⟨"loop.end", [(16, Instr.retVal (Value.constInt Ty.i32 0))]⟩)],
    funcs := [⟨"main", Ty.fn [] Ty.i32 false, [0, 3, 4, 5, 6]⟩],
    globals := [], nextId := 17, insertPt := some 6,
    currentFunction := none, pipedValue := none,
    loopCondBB := none, loopEndBB := none,
    globalScope := [], localScopes := [], diags := [] }

/-- The block trace of `r` remaining iterations of the empty-body
loop: body, inc, cond per round, then the end block. -/
def iterTrace : Nat → List Nat
  | 0 => [6]
  | r + 1 => 4 :: 5 :: 3 :: iterTrace r

theorem wrap32_eq_self (x : Int) (h1 : -2147483648 ≤ x)
    (h2 : x < 2147483648) : wrap32 x = x := by
  unfold wrap32
  omega

@[simp] theorem envGet_envSet_same (env : List (Nat × Int)) (i : Nat) (x : Int) :
    envGet (envSet env i x) i = x := by
  simp [envGet, envSet, assocInt]

theorem run_step (st : GenState) (n : Nat) (es es2 : ExecState)
    (h : stepBlock st es = .running es2) :
    run st (n + 1) es = run st n es2 := by
  simp [run, h]

theorem run_halt (st : GenState) (n : Nat) (es es2 : ExecState) (c : Int)
    (h : stepBlock st es = .halted es2 c) :
    run st (n + 1) es = .halted es2 c := by
  simp [run, h]

theorem visitsNamed_append (st : GenState) (t1 t2 : List Nat) (nm : String) :
    visitsNamed st (t1 ++ t2) nm = visitsNamed st t1 nm + visitsNamed st t2 nm := by
  simp [visitsNamed, List.countP_append]

theorem forEach_entry_step (a b : Int) (ha1 : -2147483648 ≤ a)
    (ha2 : a < 2147483648) :
    stepBlock (forEachProgGiven a b) (startAt 0)
      = .running ⟨3, some 0, [], [(1, a)], [0, 3]⟩ := by
  unfold stepBlock startAt forEachProgGiven lookupBlock
  simp [assocBlock, execInstrs, evalVal, addrOf, envSet,
    wrap32_eq_self a ha1 ha2]

theorem forEach_cond_exit (a b : Int) (hb1 : -2147483648 ≤ b)
    (hb2 : b < 2147483648) (prev : Option Nat) (env mem : List (Nat × Int))
    (tr : List Nat) (v : Int) (hv : envGet mem 1 = v) (hnlt : ¬ (v < b)) :
    stepBlock (forEachProgGiven a b) ⟨3, prev, env, mem, tr⟩
      = .running ⟨6, some 3, envSet (envSet env 8 v) 9 0, mem, tr ++ [6]⟩ := by
  unfold stepBlock forEachProgGiven lookupBlock
  simp [assocBlock, execInstrs, evalVal, addrOf, evalPred, hv,
    wrap32_eq_self b hb1 hb2, hnlt]

theorem forEach_cond_enter (a b : Int) (hb1 : -2147483648 ≤ b)
    (hb2 : b < 2147483648) (prev : Option Nat) (env mem : List (Nat × Int))
    (tr : List Nat) (v : Int) (hv : envGet mem 1 = v) (hlt : v < b) :
    stepBlock (forEachProgGiven a b) ⟨3, prev, env, mem, tr⟩
      = .running ⟨4, some 3, envSet (envSet env 8 v) 9 1, mem, tr ++ [4]⟩ := by
  unfold stepBlock forEachProgGiven lookupBlock
  simp [assocBlock, execInstrs, evalVal, addrOf, evalPred, hv,
    wrap32_eq_self b hb1 hb2, hlt]

theorem forEach_body_step (a b : Int) (prev : Option Nat)
    (env mem : List (Nat × Int)) (tr : List Nat) :
    stepBlock (forEachProgGiven a b) ⟨4, prev, env, mem, tr⟩
      = .running ⟨5, some 4, env, mem, tr ++ [5]⟩ := by
  unfold stepBlock forEachProgGiven lookupBlock
  simp [assocBlock, execInstrs]

theorem forEach_inc_step (a b : Int) (prev : Option Nat)
    (env mem : List (Nat × Int)) (tr : List Nat) (v : Int)
    (hv : envGet mem 1 = v) (h1 : -2147483648 ≤ v + 1)
    (h2 : v + 1 < 2147483648) :
    stepBlock (forEachProgGiven a b) ⟨5, prev, env, mem, tr⟩
      = .running ⟨3, some 5, envSet (envSet env 12 v) 13 (v + 1),
          envSet mem 1 (v + 1), tr ++ [3]⟩ := by
  unfold stepBlock forEachProgGiven lookupBlock
  simp [assocBlock, execInstrs, evalVal, addrOf, hv,
    wrap32_eq_self 1 (by decide) (by decide), wrap32_eq_self (v + 1) h1 h2]

theorem forEach_end_step (a b : Int) (prev : Option Nat)
    (env mem : List (Nat × Int)) (tr : List Nat) :
    stepBlock (forEachProgGiven a b) ⟨6, prev, env, mem, tr⟩
      = .halted ⟨6, prev, env, mem, tr⟩ 0 := by
  unfold stepBlock forEachProgGiven lookupBlock
  simp [assocBlock, execInstrs, evalVal,
    wrap32_eq_self 0 (by decide) (by decide)]

/-- The loop invariant of the emitted empty-body loop: entering the
cond block with the counter cell holding `v`, the machine performs the
remaining `(b - v).toNat` rounds and halts at the end block with 0. -/
theorem forEach_loop_inv (a b : Int) (hb1 : -2147483648 ≤ b)
    (hb2 : b < 2147483648) :
    ∀ (r : Nat) (v : Int) (env mem : List (Nat × Int)) (tr : List Nat)
      (prev : Option Nat),
      envGet mem 1 = v → (b - v).toNat = r →
      -2147483648 ≤ v → v < 2147483648 →
      ∃ env2 mem2,
        run (forEachProgGiven a b) (3 * r + 2) ⟨3, prev, env, mem, tr⟩
          = .halted ⟨6, some 3, env2, mem2, tr ++ iterTrace r⟩ 0
  | 0, v, env, mem, tr, prev, hv, hr, hv1, hv2 => by
    have hnlt : ¬ (v < b) := by omega
    refine ⟨envSet (envSet env 8 v) 9 0, mem, ?_⟩
    rw [show 3 * 0 + 2 = 1 + 1 from by omega]
    rw [run_step _ _ _ _ (forEach_cond_exit a b hb1 hb2 prev env mem tr v hv hnlt)]
    rw [run_halt _ 0 _ _ _ (forEach_end_step a b (some 3) _ mem (tr ++ [6]))]
    rfl
  | r + 1, v, env, mem, tr, prev, hv, hr, hv1, hv2 => by
    have hlt : v < b := by omega
    obtain ⟨env2, mem2, hrun⟩ := forEach_loop_inv a b hb1 hb2 r (v + 1)
      (envSet (envSet (envSet (envSet env 8 v) 9 1) 12 v) 13 (v + 1))
      (envSet mem 1 (v + 1)) (((tr ++ [4]) ++ [5]) ++ [3]) (some 5)
      (by simp) (by omega) (by omega) (by omega)
    refine ⟨env2, mem2, ?_⟩
    rw [show 3 * (r + 1) + 2 = ((3 * r + 2) + 1 + 1) + 1 from by omega]
    rw [run_step _ _ _ _ (forEach_cond_enter a b hb1 hb2 prev env mem tr v hv hlt)]
    rw [run_step _ _ _ _ (forEach_body_step a b (some 3) _ mem (tr ++ [4]))]
    rw [run_step _ _ _ _ (forEach_inc_step a b (some 4) _ mem ((tr ++ [4]) ++ [5])
      v hv (by omega) (by omega))]
    rw [hrun]
    simp [iterTrace]

theorem visitsNamed_iterTrace (a b : Int) : ∀ r : Nat,
    visitsNamed (forEachProgGiven a b) (iterTrace r) "loop.body" = r
  | 0 => rfl
  | r + 1 => by
    have ih := visitsNamed_iterTrace a b r
    have h4 : visitsNamed (forEachProgGiven a b) [4] "loop.body" = 1 := rfl
    have h5 : visitsNamed (forEachProgGiven a b) [5] "loop.body" = 0 := rfl
    have h3 : visitsNamed (forEachProgGiven a b) [3] "loop.body" = 0 := rfl
    show visitsNamed (forEachProgGiven a b)
      ([4] ++ ([5] ++ ([3] ++ iterTrace r))) "loop.body" = r + 1
    rw [visitsNamed_append, visitsNamed_append, visitsNamed_append,
      h4, h5, h3, ih]
    omega

/-- C3 (amended): the structural part of the claim is right — the
emitted loop tests the counter with a signed less-than against the end
value and increments by one — and for the loop the generator emits for
`range(a,b)` with an EMPTY body (no early exit), execution from the
entry block halts with 0 after entering the body block exactly
`(b - a).toNat` times: once per i ∈ {a, ..., b-1}, and zero times when
a ≥ b.  The universally quantified claim is false as stated, because a
body containing `return` leaves the loop early (see the
counterexample). -/
theorem for_each_bounds_amended (a b : Int)
    (hgen : forEachProgram a b = forEachProgGiven a b)
    (ha1 : -2147483648 ≤ a) (ha2 : a < 2147483648)
    (hb1 : -2147483648 ≤ b) (hb2 : b < 2147483648) :
    lookupBlock (forEachProgram a b) 3 = some ⟨"loop.cond",
      [(8, Instr.load Ty.i32 (Value.inst 1 (Ty.ptr Ty.i32) true)),
       (9, Instr.icmp Pred.slt (Value.inst 8 Ty.i32 false) (Value.constInt Ty.i32 b)),
       (10, Instr.condbr (Value.inst 9 Ty.i1 false) 4 6)]⟩ ∧
    lookupBlock (forEachProgram a b) 5 = some ⟨"loop.inc",
      [(12, Instr.load Ty.i32 (Value.inst 1 (Ty.ptr Ty.i32) true)),
       (13, Instr.add (Value.inst 12 Ty.i32 false) (Value.constInt Ty.i32 1)),
       (14, Instr.store (Value.inst 13 Ty.i32 false) (Value.inst 1 (Ty.ptr Ty.i32) true)),
       (15, Instr.br 3)]⟩ ∧
    (∃ env2 mem2,
      run (forEachProgram a b) (3 * (b - a).toNat + 3) (startAt 0)
        = .halted ⟨6, some 3, env2, mem2, [0, 3] ++ iterTrace ((b - a).toNat)⟩ 0) ∧
    visitsNamed (forEachProgram a b) ([0, 3] ++ iterTrace ((b - a).toNat))
      "loop.body" = (b - a).toNat := by
  rw [hgen]
  refine ⟨rfl, rfl, ?_, ?_⟩
  · obtain ⟨env2, mem2, hrun⟩ := forEach_loop_inv a b hb1 hb2 ((b - a).toNat) a
      [] [(1, a)] [0, 3] (some 0) rfl rfl ha1 ha2
    refine ⟨env2, mem2, ?_⟩
    rw [show 3 * (b - a).toNat + 3 = (3 * (b - a).toNat + 2) + 1 from by omega]
    rw [run_step _ _ _ _ (forEach_entry_step a b ha1 ha2)]
    exact hrun
  · have h0 : visitsNamed (forEachProgGiven a b) [0, 3] "loop.body" = 0 := rfl
    rw [visitsNamed_append, visitsNamed_iterTrace, h0]
    omega

theorem for_each_bounds_amended_witness :
    (∃ env2 mem2,
      run (forEachProgram 0 2) 9 (startAt 0)
        = .halted ⟨6, some 3, env2, mem2, [0, 3] ++ iterTrace 2⟩ 0) ∧
    visitsNamed (forEachProgram 0 2) ([0, 3] ++ iterTrace 2) "loop.body" = 2 := by
  have h := for_each_bounds_amended 0 2 (by decide) (by decide) (by decide)
    (by decide) (by decide)
  have e : ((2 : Int) - 0).toNat = 2 := by decide
  rw [e] at h
  constructor
  · obtain ⟨env2, mem2, hr⟩ := h.2.2.1
    exact ⟨env2, mem2, by simpa using hr⟩
  · simpa using h.2.2.2

/-- C3: the claim as stated is refuted: lowering
`for range(0,2) each { return 0 }` produces a loop whose body block is
entered once, not once per i ∈ {0, 1} — the return inside the body
halts execution in the first iteration, so the body does not run
exactly (b - a) times for every Range-driven for-each. -/
theorem for_each_bounds_counterexample :
    run forErProgram 5 (startAt 0)
      = .halted ⟨4, some 3, [(9, 1), (8, 0)], [(1, 0)], [0, 3, 4]⟩ 0 ∧
    visitsNamed forErProgram [0, 3, 4] "loop.body" = 1 ∧
    ¬ (visitsNamed forErProgram [0, 3, 4] "loop.body" = 2) := by decide

end FlowScript
